import Mathlib

/-!
Verification of the microbian kernel core (src/microbian/microbian.c).

The data model and operations below are a shallow embedding of the C
source.  Process descriptors are `Proc` values held in a list indexed by
PID (mirroring `os_ptable`); the intrusive singly linked lists of the C
code (ready queues and per-receiver sender queues threaded through the
single `p_next` field) are modelled faithfully: each descriptor carries
an optional successor PID and the queues carry optional head/tail PIDs,
so aliasing behaviour of the pointer code is preserved.  Message buffers
are modelled as indices into a store `mem : List Message`; a `none`
buffer reference models a NULL pointer.  Machine words are `Nat` with
explicit reductions mod 2 ^ 32 where the C code depends on 32-bit
arithmetic.
-/

/- ## Constants from microbian.c -/

/-- NPROCS from microbian.c line 70: capacity of the process table. -/
def NPROCS : Nat := 32

/-- Process state DEAD (microbian.c line 28). -/
def DEAD : Nat := 0

/-- Process state ACTIVE (microbian.c line 29). -/
def ACTIVE : Nat := 1

/-- Process state SENDING (microbian.c line 30). -/
def SENDING : Nat := 2

/-- Process state RECEIVING (microbian.c line 31). -/
def RECEIVING : Nat := 3

/-- Process state SENDREC (microbian.c line 32). -/
def SENDREC : Nat := 4

/-- Process state IDLING (microbian.c line 33). -/
def IDLING : Nat := 5

/-- BLANK, the filler word for fresh stacks (microbian.c line 78). -/
def BLANK : Nat := 0xdeadbeef

/-- INIT_PSR (microbian.c line 402): initial saved PSR, Thumb bit (bit 24) set. -/
def INIT_PSR : Nat := 0x01000000

/-- R0_SAVE (microbian.c line 405): frame slot of the saved R0. -/
def R0_SAVE : Nat := 8

/-- LR_SAVE (microbian.c line 408): frame slot of the saved LR. -/
def LR_SAVE : Nat := 13

/-- PC_SAVE (microbian.c line 409): frame slot of the saved PC. -/
def PC_SAVE : Nat := 14

/-- PSR_SAVE (microbian.c line 410): frame slot of the saved PSR. -/
def PSR_SAVE : Nat := 15

/-- IDLE_STACK (microbian.c line 358): stack size of the idle process. -/
def IDLE_STACK : Nat := 128

/-- Modelled from the spec: microbian.h is not under src.  P_HANDLER = 0 is
the priority given to interrupt handler processes. -/
def P_HANDLER : Nat := 0

/-- Modelled from the spec: microbian.h is not under src.  P_LOW = 2 is the
default (lowest non-idle) priority. -/
def P_LOW : Nat := 2

/-- Modelled from the spec: microbian.h is not under src.  P_IDLE = 3 is the
idle priority sentinel (os_init gives the idle process priority 3, and
make_ready treats this level as a no-op). -/
def P_IDLE : Nat := 3

/-- Modelled from the spec: microbian.h is not under src.  ANY is the
wildcard type filter for receivers; a sentinel value distinct from every
real (non-negative) message type.  Only its distinctness is used. -/
def ANY : Int := -1

/-- Modelled from the spec: microbian.h is not under src.  INTERRUPT is the
reserved message type of kernel-synthesised interrupt messages.  Its exact
value is unknown; only its distinctness from other types is used. -/
def INTERRUPT : Int := 200

/-- Modelled from the spec: microbian.h is not under src.  REPLY is the
conventional reply type used by sendrec.  Only its distinctness is used. -/
def REPLY : Int := 201

/-- Modelled from the spec: microbian.h is not under src.  HARDWARE is the
sentinel sender id for interrupt messages (the spec says 0xFFFF or a
similar sentinel that is never a real PID). -/
def HARDWARE : Int := 0xFFFF

/-- Link-time address of the exit system call stub, used as the initial
saved LR of a new process (microbian.c line 426).  The concrete value is
fixed by the linker and irrelevant; it is left as a named constant. -/
def exitAddr : Nat := 0x2000

/- ## Data model -/

/-- A message (struct message from microbian.h, shape per spec section 3):
two header fields stamped by the kernel on delivery, and an opaque body
copied by value. -/
structure Message where
  m_sender : Int
  m_type : Int
  m_body : List Int
deriving Repr, DecidableEq, Inhabited

/-- A process descriptor (struct proc, microbian.c lines 11-25).  Pointer
fields of the C struct become optional PIDs (`p_waiting`, `p_next`) and an
optional buffer index (`p_message`); the stack is a list of words with
`p_sp` a word index into it. -/
structure Proc where
  p_pid : Nat
  p_name : String
  p_state : Nat
  p_sp : Nat
  p_stack : List Nat
  p_stksize : Nat
  p_priority : Nat
  p_waiting : Option Nat
  p_pending : Bool
  p_msgtype : Int
  p_message : Option Nat
  p_next : Option Nat
deriving Repr, DecidableEq, Inhabited

/-- A ready queue (struct queue, microbian.c lines 131-133). -/
structure Queue where
  q_head : Option Nat
  q_tail : Option Nat
deriving Repr, DecidableEq, Inhabited

/-- The kernel state: os_ptable (with os_nprocs = procs.length), os_readyq
(always three queues), os_current (none models the NULL before os_start),
and the store of user message buffers. -/
structure Kernel where
  procs : List Proc
  readyq : List Queue
  current : Option Nat
  mem : List Message
deriving Repr, DecidableEq, Inhabited

/-- Read descriptor i of the process table. -/
def Kernel.proc (k : Kernel) (i : Nat) : Proc := k.procs.getD i default

/-- Update descriptor i of the process table in place. -/
def upd (k : Kernel) (i : Nat) (f : Proc → Proc) : Kernel :=
  { k with procs := k.procs.set i (f (k.proc i)) }

/-- Read ready queue i. -/
def getq (k : Kernel) (i : Nat) : Queue := k.readyq.getD i default

/-- Write ready queue i. -/
def setq (k : Kernel) (i : Nat) (q : Queue) : Kernel :=
  { k with readyq := k.readyq.set i q }

/-- The PID of os_current.  Operations that dereference os_current are only
invoked with `current = some c` (the scheduler is running). -/
def osCurrent (k : Kernel) : Nat := k.current.getD 0

/- ## Queues and the scheduler (microbian.c lines 128-162) -/

/-- make_ready (microbian.c lines 136-148): no-op at the idle level;
otherwise set the state to ACTIVE, clear p_next, and append at the tail of
the priority queue. -/
def make_ready (k : Kernel) (p prio : Nat) : Kernel :=
  if prio = P_IDLE then k
  else
    let k1 := upd k p (fun r => { r with p_state := ACTIVE, p_next := none })
    let q := getq k1 prio
    match q.q_head with
    | none => setq k1 prio { q_head := some p, q_tail := some p }
    | some _ =>
        let k2 := upd k1 (q.q_tail.getD 0) (fun r => { r with p_next := some p })
        setq k2 prio { q with q_tail := some p }

/-- choose_proc (microbian.c lines 151-162): scan the three queues in
ascending priority number, take the head of the first non-empty one as the
new current process; fall back to the idle process (PID 0). -/
def choose_proc (k : Kernel) : Kernel :=
  let q0 := getq k 0
  match q0.q_head with
  | some h =>
      { setq k 0 { q0 with q_head := (k.proc h).p_next } with current := some h }
  | none =>
    let q1 := getq k 1
    match q1.q_head with
    | some h =>
        { setq k 1 { q1 with q_head := (k.proc h).p_next } with current := some h }
    | none =>
      let q2 := getq k 2
      match q2.q_head with
      | some h =>
          { setq k 2 { q2 with q_head := (k.proc h).p_next } with current := some h }
      | none => { k with current := some 0 }

/- ## Send and receive (microbian.c lines 165-288) -/

/-- accept (microbian.c lines 171-174): is pdest waiting for a message of
this type? -/
def accept (k : Kernel) (pdest : Nat) (type : Int) : Bool :=
  let p := k.proc pdest
  p.p_state = RECEIVING && (p.p_msgtype = ANY || p.p_msgtype = type)

/-- set_state (microbian.c lines 177-182). -/
def set_state (k : Kernel) (p : Nat) (state : Nat) (type : Int) (msg : Option Nat) :
    Kernel :=
  upd k p (fun r => { r with p_state := state, p_msgtype := type, p_message := msg })

/-- deliver (microbian.c lines 185-191): with a NULL destination buffer
nothing is written; otherwise the source message (if non-NULL) is copied
by value and the sender and type header fields are stamped. -/
def deliver (k : Kernel) (buf : Option Nat) (src type : Int) (msg : Option Nat) :
    Kernel :=
  match buf with
  | none => k
  | some b =>
      let base :=
        match msg with
        | none => k.mem.getD b default
        | some m => k.mem.getD m default
      { k with mem := k.mem.set b { base with m_sender := src, m_type := type } }

/-- Follow p_next links from r to the last descriptor of a chain (the while
loop of enqueue, microbian.c lines 199-201).  The fuel bounds the walk; a
chain of distinct PIDs is never longer than the process table. -/
def lastInChain (ps : List Proc) (r : Nat) : Nat → Nat
  | 0 => r
  | fuel + 1 =>
      match (ps.getD r default).p_next with
      | none => r
      | some r2 => lastInChain ps r2 fuel

/-- enqueue (microbian.c lines 194-204): append the current process to the
sender queue of pdest. -/
def enqueue (k : Kernel) (pdest : Nat) : Kernel :=
  let c := osCurrent k
  let k1 := upd k c (fun r => { r with p_next := none })
  match (k1.proc pdest).p_waiting with
  | none => upd k1 pdest (fun r => { r with p_waiting := some c })
  | some r0 =>
      let last := lastInChain k1.procs r0 NPROCS
      upd k1 last (fun r => { r with p_next := some c })

/-- The panic message of mini_send and mini_sendrec (microbian.c lines 212
and 272). -/
def nonexistentMsg (dest : Int) : String :=
  "Sending to a non-existent process " ++ toString dest

/-- mini_send (microbian.c lines 207-224).  A panic is modelled as
`Except.error` carrying the panic message. -/
def mini_send (k : Kernel) (dest type : Int) (msg : Option Nat) : Except String Kernel :=
  let src := (k.proc (osCurrent k)).p_pid
  if dest < 0 || (k.procs.length : Int) ≤ dest
      || (k.proc dest.toNat).p_state = DEAD then
    Except.error (nonexistentMsg dest)
  else
    let d := dest.toNat
    if accept k d type then
      -- Receiver is waiting for us
      let k1 := deliver k (k.proc d).p_message src type msg
      Except.ok (make_ready k1 d (k1.proc d).p_priority)
    else
      -- Sender must wait by joining the queue of the receiver
      let k1 := set_state k (osCurrent k) SENDING type msg
      let k2 := enqueue k1 d
      Except.ok (choose_proc k2)

/-- The body run when the scan of mini_receive finds a matching sender
psrc (microbian.c lines 241-255).  The splice writes `p_waiting` of the
receiver when the match is at the head, and otherwise writes `p_next` OF
THE RECEIVER (os_current), exactly as the source does on line 245; and the
SENDREC arm parks psrc with buffer `msg` (the buffer of the receiver),
exactly as the source does on line 253. -/
def rcv_found (k : Kernel) (msg : Option Nat) (psrc : Nat) (prev : Option Nat) :
    Kernel :=
  let c := osCurrent k
  let snext := (k.proc psrc).p_next
  let k1 :=
    match prev with
    | none => upd k c (fun r => { r with p_waiting := snext })
    | some _ => upd k c (fun r => { r with p_next := snext })
  let ps := k1.proc psrc
  let k2 := deliver k1 msg ps.p_pid ps.p_msgtype ps.p_message
  if ps.p_state = SENDING then
    make_ready k2 psrc ps.p_priority
  else
    -- After sending, a SENDREC process waits for a reply
    -- (assert(psrc->p_state == SENDREC) in the source).
    set_state k2 psrc RECEIVING REPLY msg

/-- The scan loop of mini_receive (microbian.c lines 239-259), walking the
sender queue of the current process.  `none` means the loop ended with no
match.  The fuel bounds the walk: on an acyclic chain it is never
exhausted; on a cyclic chain the C loop would not terminate. -/
def rcv_scan (k : Kernel) (type : Int) (msg : Option Nat) :
    Option Nat → Option Nat → Nat → Option Kernel
  | _, _, 0 => none
  | none, _, _ + 1 => none
  | some s, prev, fuel + 1 =>
      if type = ANY || (k.proc s).p_msgtype = type then
        some (rcv_found k msg s prev)
      else
        rcv_scan k type msg (k.proc s).p_next (some s) fuel

/-- mini_receive (microbian.c lines 227-265): pending interrupt first, then
the sender-queue scan (unless filtering on INTERRUPT), else block. -/
def mini_receive (k : Kernel) (type : Int) (msg : Option Nat) : Kernel :=
  let c := osCurrent k
  let pc := k.proc c
  if pc.p_pending && (type = ANY || type = INTERRUPT) then
    let k1 := upd k c (fun r => { r with p_pending := false })
    deliver k1 msg HARDWARE INTERRUPT none
  else
    let scanned :=
      if type ≠ INTERRUPT then rcv_scan k type msg pc.p_waiting none NPROCS
      else none
    match scanned with
    | some k1 => k1
    | none =>
        -- No luck: we must wait.
        choose_proc (set_state k c RECEIVING type msg)

/-- mini_sendrec (microbian.c lines 267-288). -/
def mini_sendrec (k : Kernel) (dest type : Int) (msg : Option Nat) :
    Except String Kernel :=
  let src := (k.proc (osCurrent k)).p_pid
  if dest < 0 || (k.procs.length : Int) ≤ dest
      || (k.proc dest.toNat).p_state = DEAD then
    Except.error (nonexistentMsg dest)
  else
    let d := dest.toNat
    let k3 :=
      if accept k d type then
        -- Receiver is waiting for us
        let k1 := deliver k (k.proc d).p_message src type msg
        let k2 := make_ready k1 d (k1.proc d).p_priority
        -- Now we must wait for a reply
        set_state k2 (osCurrent k2) RECEIVING REPLY msg
      else
        -- Sender must wait by joining the queue of the receiver
        enqueue (set_state k (osCurrent k) SENDREC type msg) d
    Except.ok (choose_proc k3)

/- ## Interrupt handling (microbian.c lines 291-348) -/

/-- cxt_switch (microbian.c lines 513-518): re-queue the current process at
its priority and pick a new one.  (The saved stack pointer bookkeeping is
the identity in this model, which does not step user instructions.) -/
def cxt_switch (k : Kernel) : Kernel :=
  choose_proc (make_ready k (osCurrent k) ((k.proc (osCurrent k)).p_priority))

/-- interrupt (microbian.c lines 318-334).  Delivery to a waiting receiver
enqueues it at P_HANDLER; the reschedule() requested when the interrupted
process has priority > 0 pends a PendSV whose handler runs cxt_switch, so
its net state effect is modelled as an immediate cxt_switch.  Otherwise
only the pending flag of the destination is set. -/
def interrupt_step (k : Kernel) (dest : Nat) : Kernel :=
  if accept k dest INTERRUPT then
    -- Receiver is waiting for an interrupt
    let k1 := deliver k (k.proc dest).p_message HARDWARE INTERRUPT none
    let k2 := make_ready k1 dest P_HANDLER
    if 0 < (k2.proc (osCurrent k2)).p_priority then
      -- Preempt lower-priority process
      cxt_switch k2
    else k2
  else
    upd k dest (fun r => { r with p_pending := true })

/-- The initial IRQ handler table (microbian.c line 301): a static array of
32 ints, zero-initialised, entry 0 meaning unregistered. -/
def os_handler_init : List Int := List.replicate 32 0

/-- default_handler (microbian.c lines 342-348): look up the active IRQ; a
negative IRQ number or an unregistered (zero) handler entry is a panic
(modelled as Except.error with the panic message); otherwise the IRQ is
disabled and `interrupt(task)` is invoked, modelled by returning the
handler task PID. -/
def default_handler (handlers : List Int) (irq : Int) : Except String Int :=
  if irq < 0 || handlers.getD irq.toNat 0 = 0 then
    Except.error ("Unexpected interrupt " ++ toString irq)
  else
    Except.ok (handlers.getD irq.toNat 0)

/- ## Initialisation (microbian.c lines 356-451) -/

/-- roundup (microbian.c line 412): (x + n - 1) & ~(n - 1).  For the
power-of-two n = 8 used by start this equals rounding up to a multiple of
n, written here arithmetically. -/
def roundup (x n : Nat) : Nat := (x + n - 1) - (x + n - 1) % n

/-- The descriptor init_proc fills in (microbian.c lines 371-389): a stack
of stksize bytes (stksize/4 words) painted with BLANK, sp at its top, and
the field defaults of lines 377-389. -/
def newProcRec (pid : Nat) (name : String) (stksize : Nat) : Proc :=
  { p_pid := pid
    p_name := name.take 15
    p_state := ACTIVE
    p_sp := stksize / 4
    p_stack := List.replicate (stksize / 4) BLANK
    p_stksize := stksize
    p_priority := P_LOW
    p_waiting := none
    p_pending := false
    p_msgtype := ANY
    p_message := none
    p_next := none }

/-- init_proc (microbian.c lines 360-392): allocate the next PID and a
fresh descriptor.  `none` models the "Too many processes" panic.  The
storage arena itself (sbrk / new_proc) is not modelled; descriptors live
in the table and stacks inside their descriptor. -/
def init_proc (k : Kernel) (name : String) (stksize : Nat) :
    Option (Kernel × Nat) :=
  if NPROCS ≤ k.procs.length then none
  else
    some ({ k with procs := k.procs ++ [newProcRec k.procs.length name stksize] },
      k.procs.length)

/-- The empty kernel before os_init: no processes, three empty ready
queues, os_current NULL.  The buffer store models user memory and its
initial contents are arbitrary. -/
def emptyK (mem : List Message) : Kernel :=
  { procs := []
    readyq := [⟨none, none⟩, ⟨none, none⟩, ⟨none, none⟩]
    current := none
    mem := mem }

/-- os_init (microbian.c lines 395-400): create the idle process as PID 0
with state IDLING and priority 3. -/
def os_init (mem : List Message) : Kernel :=
  match init_proc (emptyK mem) "IDLE" IDLE_STACK with
  | some (k, pid) =>
      upd k pid (fun r => { r with p_state := IDLING, p_priority := 3 })
  | none => emptyK mem

/-- memset(sp, 0, 4*n) on a word list (microbian.c line 423 with n = 16):
zero the n words starting at index sp. -/
def memset_words (stack : List Nat) (sp : Nat) : Nat → List Nat
  | 0 => stack
  | m + 1 => (memset_words stack sp m).set (sp + m) 0

/-- The synthetic exception frame built by start (microbian.c lines
422-428): 16 words at the stack top zeroed, then PSR := INIT_PSR,
PC := body with bit 0 cleared (32-bit cast), LR := exit, R0 := arg
(cast to a 32-bit unsigned word). -/
def writeFrame (stack : List Nat) (sp : Nat) (body : Nat) (arg : Int) : List Nat :=
  ((((memset_words stack sp 16).set
      (sp + PSR_SAVE) INIT_PSR).set
      (sp + PC_SAVE) (Nat.land (body % 2 ^ 32) 0xFFFFFFFE)).set
      (sp + LR_SAVE) exitAddr).set
      (sp + R0_SAVE) ((arg % 2 ^ 32).toNat)

/-- start (microbian.c lines 415-432): create a process (stack rounded up
to 8 bytes), panic (`none`) if called after scheduler startup, fake an
exception frame at the top of the stack, and make the process ready at its
priority.  Returns the new kernel and the PID. -/
def start (k : Kernel) (name : String) (body : Nat) (arg : Int) (stksize : Nat) :
    Option (Kernel × Nat) :=
  match init_proc k name (roundup stksize 8) with
  | none => none
  | some (k1, pid) =>
      if k1.current ≠ none then none  -- "start() called after scheduler startup"
      else
        let p := k1.proc pid
        let sp := p.p_sp - 16
        let k2 := upd k1 pid (fun r =>
          { r with p_sp := sp, p_stack := writeFrame r.p_stack sp body arg })
        some (make_ready k2 pid (k2.proc pid).p_priority, pid)

/-- The SYS_YIELD case of system_call (microbian.c lines 475-478) and the
yield syscall issued by os_start. -/
def yield_step (k : Kernel) : Kernel :=
  choose_proc (make_ready k (osCurrent k) ((k.proc (osCurrent k)).p_priority))

/-- The SYS_EXIT case of system_call (microbian.c lines 492-494). -/
def exit_step (k : Kernel) : Kernel :=
  choose_proc (upd k (osCurrent k) (fun r => { r with p_state := DEAD }))

/-- os_start (microbian.c lines 438-451): the boot thread morphs into the
idle process (PID 0) and yields to pick a real process. -/
def os_start_step (k : Kernel) : Kernel :=
  yield_step { k with current := some 0 }

/- ## Access order of the destination validation (for mini_send and
mini_sendrec, microbian.c lines 207-212 and 267-272) -/

/-- The sequence of os_ptable index loads mini_send (and mini_sendrec)
performs before its validation test decides, in program order: the line
`struct proc *pdest = os_ptable[dest];` loads the table entry BEFORE the
range test runs (microbian.c line 209 before line 211). -/
def mini_send_table_loads (dest : Int) : List Int := [dest]

/-- The descriptor field reads of the validation itself: p_state is read
only when dest has already passed the range test, because || short-circuits
(microbian.c line 211). -/
def mini_send_state_reads (nprocs : Nat) (dest : Int) : List Int :=
  if 0 ≤ dest ∧ dest < nprocs then [dest] else []

/- ## Reachable kernel states -/

/-- The kernel operations, as invocable in a real execution (spec sections
4-5): os_init happens first; start only before os_start; syscalls are
issued by the current process, and the idle process (whose body is the
os_start loop) issues no syscall after its initial yield; interrupt(dest)
is called only by default_handler, which guarantees a registered handler
task (dest nonzero, microbian.c line 344) that connect() stored as a live
PID.  Message-buffer arguments are arbitrary user pointers. -/
inductive Reachable : Kernel → Prop where
  | init (mem : List Message) : Reachable (os_init mem)
  | startp {k k' : Kernel} {pid : Nat} (name : String) (body : Nat) (arg : Int)
      (stk : Nat) : Reachable k → start k name body arg stk = some (k', pid) →
      Reachable k'
  | ostart {k : Kernel} : Reachable k → k.current = none →
      Reachable (os_start_step k)
  | yieldp {k : Kernel} {c : Nat} : Reachable k → k.current = some c →
      Reachable (yield_step k)
  | sendp {k k' : Kernel} {c : Nat} (dest type : Int) (msg : Option Nat) :
      Reachable k → k.current = some c → c ≠ 0 →
      mini_send k dest type msg = Except.ok k' → Reachable k'
  | recvp {k : Kernel} {c : Nat} (type : Int) (msg : Option Nat) :
      Reachable k → k.current = some c → c ≠ 0 →
      Reachable (mini_receive k type msg)
  | sendrecp {k k' : Kernel} {c : Nat} (dest type : Int) (msg : Option Nat) :
      Reachable k → k.current = some c → c ≠ 0 →
      mini_sendrec k dest type msg = Except.ok k' → Reachable k'
  | exitp {k : Kernel} {c : Nat} : Reachable k → k.current = some c → c ≠ 0 →
      Reachable (exit_step k)
  | interruptp {k : Kernel} (dest : Nat) : Reachable k → dest ≠ 0 →
      dest < k.procs.length → Reachable (interrupt_step k dest)

/- ## List membership along intrusive chains -/

/-- Does the chain starting at h (following p_next) contain PID t?  Fuel
bounds the walk. -/
def chainHas (ps : List Proc) : Option Nat → Nat → Nat → Bool
  | _, _, 0 => false
  | none, _, _ + 1 => false
  | some s, t, fuel + 1 => s = t || chainHas ps (ps.getD s default).p_next t fuel

/-- Is PID t linked on some ready queue? -/
def onReady (k : Kernel) (t : Nat) : Bool :=
  (List.range 3).any fun i => chainHas k.procs (getq k i).q_head t NPROCS

/-- Is PID t linked on the sender queue of some process? -/
def onSenderQ (k : Kernel) (t : Nat) : Bool :=
  (List.range k.procs.length).any fun r =>
    chainHas k.procs (k.proc r).p_waiting t NPROCS

/-- The chain starting at h is exactly the list l of PIDs (each element
linked to the next by p_next, the last linked to none). -/
def isChain (ps : List Proc) : Option Nat → List Nat → Bool
  | h, [] => h = none
  | h, x :: l => h = some x && isChain ps (ps.getD x default).p_next l

/-- Ready queue i holds exactly the PIDs l: the head chain is l and, when l
is non-empty, the tail field names its last element.  (For an empty queue
the code only consults q_head, so a stale tail is irrelevant.) -/
def queueRepr (k : Kernel) (i : Nat) (l : List Nat) : Bool :=
  isChain k.procs (getq k i).q_head l && (l = [] || (getq k i).q_tail = l.getLast?)

/- ## Validity of a send destination, and the claims under test -/

/-- The destination validation test of mini_send and mini_sendrec
(microbian.c lines 211 and 271), as a predicate: dest passes when it is in
range and the descriptor is not DEAD. -/
def destValid (k : Kernel) (dest : Int) : Bool :=
  !(dest < 0 || (k.procs.length : Int) ≤ dest || (k.proc dest.toNat).p_state = DEAD)

/-- The destination-validation behaviour exactly as claim C5 states it, at
one destination: an invalid dest panics with the diagnostic naming dest,
and every process-table access made before the panic is in range. -/
def sendValidationClaim (k : Kernel) (dest : Int) : Prop :=
  destValid k dest = false →
    mini_send k dest 0 none = Except.error (nonexistentMsg dest) ∧
    ∀ a ∈ mini_send_table_loads dest, 0 ≤ a ∧ a < (NPROCS : Int)

/-- The priority-preemption property exactly as claim C4 states it, for the
send path: when the send syscall step completes, the process that resumes
(os_current, whose frame system_call returns) is of no worse priority than
any process left linked on a ready queue, i.e. a woken higher-priority
receiver runs before the sender continues. -/
def sendPreemptsClaim (k : Kernel) (dest type : Int) (msg : Option Nat) : Prop :=
  ∀ k', mini_send k dest type msg = Except.ok k' →
    ∀ p, onReady k' p = true →
      (k'.proc (osCurrent k')).p_priority ≤ (k'.proc p).p_priority

/- ## Concrete scenario states -/

/-- Build a descriptor for a concrete scenario (fields that the IPC
operations consult; stack fields are irrelevant to message passing). -/
def mkProc (pid state prio : Nat) (waiting : Option Nat) (pending : Bool)
    (mtype : Int) (msgb : Option Nat) (next : Option Nat) : Proc :=
  { p_pid := pid
    p_name := "P"
    p_state := state
    p_sp := 0
    p_stack := []
    p_stksize := 0
    p_priority := prio
    p_waiting := waiting
    p_pending := pending
    p_msgtype := mtype
    p_message := msgb
    p_next := next }

/-- Three empty ready queues. -/
def q3 : List Queue := [⟨none, none⟩, ⟨none, none⟩, ⟨none, none⟩]

/-- Scenario for C1: receiver 1 is running; process 2 made a sendrec to it
with request type 7 and its own buffer 1, and is queued on the sender
queue of 1 in state SENDREC. -/
def c1K : Kernel :=
  { procs := [mkProc 0 IDLING 3 none false ANY none none,
              mkProc 1 ACTIVE 2 (some 2) false ANY none none,
              mkProc 2 SENDREC 2 none false 7 (some 1) none]
    readyq := q3
    current := some 1
    mem := [⟨0, 0, [0]⟩, ⟨1, 7, [42]⟩] }

/-- Scenario for C2: receiver 1 is running; sender 2 (type 10, buffer 1)
arrived first and sender 3 (type 20, buffer 2) second, both SENDING, so the
sender queue of 1 is the chain 2, 3. -/
def c2K : Kernel :=
  { procs := [mkProc 0 IDLING 3 none false ANY none none,
              mkProc 1 ACTIVE 2 (some 2) false ANY none none,
              mkProc 2 SENDING 2 none false 10 (some 1) (some 3),
              mkProc 3 SENDING 2 none false 20 (some 2) none]
    readyq := q3
    current := some 1
    mem := [⟨0, 0, [0]⟩, ⟨2, 10, [11]⟩, ⟨3, 20, [22]⟩] }

/-- The state after receiver 1 of c2K runs receive(20, buffer 0). -/
def c2K1 : Kernel := mini_receive c2K 20 (some 0)

/-- The state after a further receive(ANY, buffer 0). -/
def c2K2 : Kernel := mini_receive c2K1 ANY (some 0)

/-- The state after a third receive(ANY, buffer 0). -/
def c2K3 : Kernel := mini_receive c2K2 ANY (some 0)

/-- Scenario for C4: process 1 (priority 2, running) sends type 5 to
process 2 (priority 0) which is RECEIVING with filter ANY. -/
def c4K : Kernel :=
  { procs := [mkProc 0 IDLING 3 none false ANY none none,
              mkProc 1 ACTIVE 2 none false ANY none none,
              mkProc 2 RECEIVING 0 none false ANY (some 0) none]
    readyq := q3
    current := some 1
    mem := [⟨0, 0, [0]⟩, ⟨1, 5, [55]⟩] }

/-- The state after the send of c4K. -/
def c4K1 : Kernel :=
  match mini_send c4K 2 5 (some 1) with
  | Except.ok k => k
  | Except.error _ => c4K

/- ## The C3 trace: a reachable state with one descriptor on two lists -/

/-- User buffers for the C3 trace. -/
def c3mem : List Message := [⟨0, 0, [0]⟩, ⟨1, 10, [11]⟩, ⟨2, 20, [22]⟩]

/-- After os_init. -/
def c3k0 : Kernel := os_init c3mem

/-- After start of S1 (PID 1). -/
def c3k1 : Kernel :=
  match start c3k0 "S1" 100 0 64 with
  | some (k, _) => k
  | none => c3k0

/-- After start of S2 (PID 2). -/
def c3k2 : Kernel :=
  match start c3k1 "S2" 100 0 64 with
  | some (k, _) => k
  | none => c3k1

/-- After start of R (PID 3). -/
def c3k3 : Kernel :=
  match start c3k2 "R" 100 0 64 with
  | some (k, _) => k
  | none => c3k2

/-- After os_start: S1 (PID 1) is chosen to run. -/
def c3k4 : Kernel := os_start_step c3k3

/-- After S1 performs send(3, 10, buffer 1): S1 joins the sender queue of
R and S2 (PID 2) runs. -/
def c3k5 : Kernel :=
  match mini_send c3k4 3 10 (some 1) with
  | Except.ok k => k
  | Except.error _ => c3k4

/-- After S2 performs send(3, 20, buffer 2): S2 queues behind S1 and R
(PID 3) runs. -/
def c3k6 : Kernel :=
  match mini_send c3k5 3 20 (some 2) with
  | Except.ok k => k
  | Except.error _ => c3k5

/-- After R performs receive(20, buffer 0), which matches S2 in the middle
of the sender queue. -/
def c3final : Kernel := mini_receive c3k6 20 (some 0)

/-- Scenario for the C10 witness: like c4K but the waiting receiver
registered a NULL message buffer. -/
def c10K : Kernel :=
  { procs := [mkProc 0 IDLING 3 none false ANY none none,
              mkProc 1 ACTIVE 2 none false ANY none none,
              mkProc 2 RECEIVING 0 none false ANY none none]
    readyq := q3
    current := some 1
    mem := [⟨0, 0, [0]⟩] }

/-- The state after the send of c10K. -/
def c10K1 : Kernel :=
  match mini_send c10K 2 5 none with
  | Except.ok k => k
  | Except.error _ => c10K

/-- The pointwise invariant that keeps the idle process (PID 0) off every
list: no link field anywhere names PID 0, the idle descriptor stays IDLING
at priority P_IDLE, and the table is non-empty (os_init ran). -/
def NoIdle (k : Kernel) : Prop :=
  (∀ p ∈ k.procs, p.p_next ≠ some 0 ∧ p.p_waiting ≠ some 0) ∧
  (∀ q ∈ k.readyq, q.q_head ≠ some 0 ∧ q.q_tail ≠ some 0) ∧
  (k.proc 0).p_state = IDLING ∧
  (k.proc 0).p_priority = P_IDLE ∧
  0 < k.procs.length

/-- The idle descriptor as os_init leaves it: the init_proc defaults with
state IDLING and priority 3 (microbian.c lines 396-399). -/
def idleProcRec : Proc :=
  { p_pid := 0
    p_name := "IDLE".take 15
    p_state := IDLING
    p_sp := 32
    p_stack := List.replicate 32 BLANK
    p_stksize := 128
    p_priority := 3
    p_waiting := none
    p_pending := false
    p_msgtype := ANY
    p_message := none
    p_next := none }

/- ## Basic lemmas about the state helpers -/

theorem getD_set_self {α : Type} (l : List α) (i : Nat) (a d : α)
    (h : i < l.length) : (l.set i a).getD i d = a := by
  rw [List.getD_eq_getElem?_getD, List.getElem?_set_self (by simpa using h)]
  rfl

theorem getD_set_ne {α : Type} (l : List α) {i j : Nat} (a d : α)
    (h : j ≠ i) : (l.set i a).getD j d = l.getD j d := by
  rw [List.getD_eq_getElem?_getD, List.getD_eq_getElem?_getD,
    List.getElem?_set_ne (fun he => h he.symm)]

theorem getD_snoc_lt {α : Type} (l : List α) (a d : α) {j : Nat}
    (h : j < l.length) : (l ++ [a]).getD j d = l.getD j d :=
  List.getD_append _ _ _ _ h

theorem getD_snoc_self {α : Type} (l : List α) (a d : α) :
    (l ++ [a]).getD l.length d = a := by
  rw [List.getD_append_right _ _ _ _ (Nat.le_refl _), Nat.sub_self]
  rfl

theorem upd_procs (k : Kernel) (i : Nat) (f : Proc → Proc) :
    (upd k i f).procs = k.procs.set i (f (k.proc i)) := rfl

theorem upd_readyq (k : Kernel) (i : Nat) (f : Proc → Proc) :
    (upd k i f).readyq = k.readyq := rfl

theorem upd_current (k : Kernel) (i : Nat) (f : Proc → Proc) :
    (upd k i f).current = k.current := rfl

theorem upd_mem (k : Kernel) (i : Nat) (f : Proc → Proc) :
    (upd k i f).mem = k.mem := rfl

theorem proc_upd_self (k : Kernel) (i : Nat) (f : Proc → Proc)
    (h : i < k.procs.length) : (upd k i f).proc i = f (k.proc i) := by
  unfold upd Kernel.proc
  exact getD_set_self _ _ _ _ h

theorem proc_upd_ne (k : Kernel) {i j : Nat} (f : Proc → Proc)
    (h : j ≠ i) : (upd k i f).proc j = k.proc j := by
  unfold upd Kernel.proc
  exact getD_set_ne _ _ _ h

theorem setq_procs (k : Kernel) (i : Nat) (q : Queue) :
    (setq k i q).procs = k.procs := rfl

theorem setq_current (k : Kernel) (i : Nat) (q : Queue) :
    (setq k i q).current = k.current := rfl

theorem setq_mem (k : Kernel) (i : Nat) (q : Queue) :
    (setq k i q).mem = k.mem := rfl

theorem proc_setq (k : Kernel) (i : Nat) (q : Queue) (j : Nat) :
    (setq k i q).proc j = k.proc j := rfl

theorem getq_setq_self (k : Kernel) (i : Nat) (q : Queue)
    (h : i < k.readyq.length) : getq (setq k i q) i = q := by
  unfold getq setq
  exact getD_set_self _ _ _ _ h

theorem getq_setq_ne (k : Kernel) {i j : Nat} (q : Queue)
    (h : j ≠ i) : getq (setq k i q) j = getq k j := by
  unfold getq setq
  exact getD_set_ne _ _ _ h

theorem getq_upd (k : Kernel) (i : Nat) (f : Proc → Proc) (j : Nat) :
    getq (upd k i f) j = getq k j := rfl

theorem deliver_procs (k : Kernel) (buf : Option Nat) (src type : Int)
    (msg : Option Nat) : (deliver k buf src type msg).procs = k.procs := by
  cases buf <;> rfl

theorem deliver_readyq (k : Kernel) (buf : Option Nat) (src type : Int)
    (msg : Option Nat) : (deliver k buf src type msg).readyq = k.readyq := by
  cases buf <;> rfl

theorem deliver_current (k : Kernel) (buf : Option Nat) (src type : Int)
    (msg : Option Nat) : (deliver k buf src type msg).current = k.current := by
  cases buf <;> rfl

theorem deliver_proc (k : Kernel) (buf : Option Nat) (src type : Int)
    (msg : Option Nat) (j : Nat) : (deliver k buf src type msg).proc j = k.proc j := by
  unfold Kernel.proc
  rw [deliver_procs]

theorem getq_deliver (k : Kernel) (buf : Option Nat) (src type : Int)
    (msg : Option Nat) (j : Nat) : getq (deliver k buf src type msg) j = getq k j := by
  unfold getq
  rw [deliver_readyq]

theorem osCurrent_upd (k : Kernel) (i : Nat) (f : Proc → Proc) :
    osCurrent (upd k i f) = osCurrent k := rfl

theorem osCurrent_setq (k : Kernel) (i : Nat) (q : Queue) :
    osCurrent (setq k i q) = osCurrent k := rfl

theorem osCurrent_deliver (k : Kernel) (buf : Option Nat) (src type : Int)
    (msg : Option Nat) : osCurrent (deliver k buf src type msg) = osCurrent k := by
  unfold osCurrent
  rw [deliver_current]

theorem default_proc_state : (default : Proc).p_state = 0 := rfl

theorem default_proc_next : (default : Proc).p_next = none := rfl

theorem default_proc_waiting : (default : Proc).p_waiting = none := rfl

/-- A property holding for every table entry and for the default descriptor
holds for every `k.proc i`. -/
theorem proc_prop {P : Proc → Prop} {k : Kernel}
    (h : ∀ p ∈ k.procs, P p) (hd : P (default : Proc)) (i : Nat) :
    P (k.proc i) := by
  unfold Kernel.proc
  by_cases hi : i < k.procs.length
  · rw [List.getD_eq_getElem _ _ hi]
    exact h _ (List.getElem_mem hi)
  · rw [List.getD_eq_default _ _ (Nat.le_of_not_lt hi)]
    exact hd

/-- accept can only hold for a PID inside the table: the default descriptor
is DEAD, not RECEIVING. -/
theorem accept_lt {k : Kernel} {d : Nat} {type : Int}
    (h : accept k d type = true) : d < k.procs.length := by
  by_contra hd
  unfold accept Kernel.proc at h
  rw [List.getD_eq_default _ _ (Nat.le_of_not_lt hd)] at h
  simp [default_proc_state, RECEIVING] at h

theorem osCurrent_eq {k : Kernel} {c : Nat} (h : k.current = some c) :
    osCurrent k = c := by
  unfold osCurrent
  rw [h]
  rfl

theorem accept_unfold {k : Kernel} {d : Nat} {type : Int}
    (h : accept k d type = true) :
    (k.proc d).p_state = RECEIVING ∧
      ((k.proc d).p_msgtype = ANY ∨ (k.proc d).p_msgtype = type) := by
  unfold accept at h
  simpa using h

theorem make_ready_current (k : Kernel) (p prio : Nat) :
    (make_ready k p prio).current = k.current := by
  unfold make_ready
  by_cases h : prio = P_IDLE
  · simp [h]
  · simp only [h, if_neg, if_false]
    cases (getq (upd k p fun r => { r with p_state := ACTIVE, p_next := none }) prio).q_head
    · rfl
    · rfl

theorem make_ready_mem (k : Kernel) (p prio : Nat) :
    (make_ready k p prio).mem = k.mem := by
  unfold make_ready
  by_cases h : prio = P_IDLE
  · simp [h]
  · simp only [h, if_neg, if_false]
    cases (getq (upd k p fun r => { r with p_state := ACTIVE, p_next := none }) prio).q_head
    · rfl
    · rfl

theorem make_ready_state (k : Kernel) (p prio : Nat)
    (hlen : p < k.procs.length) (h : prio ≠ P_IDLE) :
    ((make_ready k p prio).proc p).p_state = ACTIVE := by
  unfold make_ready
  simp only [h, if_neg, if_false]
  set k1 := upd k p fun r => { r with p_state := ACTIVE, p_next := none } with hk1
  have hp1 : (k1.proc p).p_state = ACTIVE := by
    rw [hk1, proc_upd_self _ _ _ hlen]
  have hlen1 : p < k1.procs.length := by
    rw [hk1, upd_procs, List.length_set]
    exact hlen
  cases hq : (getq k1 prio).q_head
  · rw [proc_setq]
    exact hp1
  · rw [proc_setq]
    by_cases ht : ((getq k1 prio).q_tail.getD 0) = p
    · rw [ht, proc_upd_self _ _ _ hlen1]
      exact hp1
    · rw [proc_upd_ne _ _ (Ne.symm ht)]
      exact hp1

theorem make_ready_tail (k : Kernel) (p prio : Nat)
    (h : prio ≠ P_IDLE) (hq : prio < k.readyq.length) :
    (getq (make_ready k p prio) prio).q_tail = some p := by
  unfold make_ready
  simp only [h, if_neg, if_false]
  set k1 := upd k p fun r => { r with p_state := ACTIVE, p_next := none } with hk1
  have hq1 : prio < k1.readyq.length := by
    rw [hk1, upd_readyq]
    exact hq
  cases hh : (getq k1 prio).q_head
  · rw [getq_setq_self _ _ _ hq1]
  · rw [getq_setq_self]
    rw [upd_readyq]
    exact hq1

/-- Claim C10: deliver writes nothing when the destination buffer is NULL
(and the surrounding send still performs its state transition, since
delivery with a NULL buffer leaves the kernel state untouched and make_ready
still runs); with only the source message NULL it writes exactly the
m_sender and m_type header fields, every body byte and every other buffer
unchanged. -/
theorem deliver_spec :
    (∀ (k : Kernel) (src type : Int) (msg : Option Nat),
       deliver k none src type msg = k) ∧
    (∀ (k : Kernel) (b : Nat) (src type : Int), b < k.mem.length →
       (deliver k (some b) src type none).mem.getD b default =
         { k.mem.getD b default with m_sender := src, m_type := type } ∧
       (∀ j, j ≠ b →
          (deliver k (some b) src type none).mem.getD j default =
            k.mem.getD j default) ∧
       (deliver k (some b) src type none).procs = k.procs ∧
       (deliver k (some b) src type none).readyq = k.readyq) ∧
    (∀ (k k' : Kernel) (dest type : Int) (msg : Option Nat),
       mini_send k dest type msg = Except.ok k' →
       0 ≤ dest →
       accept k dest.toNat type = true →
       (k.proc dest.toNat).p_message = none →
       k' = make_ready k dest.toNat ((k.proc dest.toNat).p_priority)) := by
  refine ⟨fun k src type msg => rfl, ?_, ?_⟩
  · intro k b src type hb
    refine ⟨getD_set_self _ _ _ _ hb, fun j hj => getD_set_ne _ _ _ hj, rfl, rfl⟩
  · intro k k' dest type msg hok h0 hacc hbuf
    have hd : dest.toNat < k.procs.length := accept_lt hacc
    have hstate := (accept_unfold hacc).1
    unfold mini_send at hok
    have hc1 : ¬ dest < 0 := by omega
    have hc2 : ¬ (k.procs.length : Int) ≤ dest := by omega
    have hc3 : (k.proc dest.toNat).p_state ≠ DEAD := by
      rw [hstate]
      decide
    simp only [hc1, hc2, hc3, decide_False, Bool.false_or, Bool.or_self,
      Bool.false_eq_true, if_false, decide_eq_true_eq, if_neg, hacc, if_true,
      Bool.or_false, not_false_eq_true] at hok
    rw [hbuf] at hok
    simpa [deliver] using hok.symm

/-- Witness for deliver_spec at concrete inputs. -/
theorem deliver_spec_witness :
    deliver c10K none 1 5 none = c10K ∧
    (deliver c10K (some 0) 1 5 none).mem.getD 0 default =
      { c10K.mem.getD 0 default with m_sender := 1, m_type := 5 } ∧
    c10K1 = make_ready c10K 2 ((c10K.proc 2).p_priority) := by
  have h := deliver_spec
  exact ⟨h.1 c10K 1 5 none, (h.2.1 c10K 0 1 5 (by decide)).1,
    h.2.2 c10K c10K1 2 5 none rfl (by decide) (by decide) (by decide)⟩

/-- Claim C9: an interrupt with a negative active IRQ number or an
unregistered handler-table entry (still its initial value 0) panics in
default_handler instead of delivering a message; a successful lookup never
yields task 0, so PID 0 can never act as an interrupt handler; and every
entry of the initial handler table is 0. -/
theorem default_handler_spec :
    (∀ (handlers : List Int) (irq : Int),
       irq < 0 ∨ handlers.getD irq.toNat 0 = 0 →
         default_handler handlers irq =
           Except.error ("Unexpected interrupt " ++ toString irq)) ∧
    (∀ (handlers : List Int) (irq task : Int),
       default_handler handlers irq = Except.ok task →
         task = handlers.getD irq.toNat 0 ∧ task ≠ 0 ∧ 0 ≤ irq) ∧
    (∀ i : Nat, os_handler_init.getD i 0 = 0) := by
  refine ⟨?_, ?_, ?_⟩
  · intro handlers irq h
    unfold default_handler
    have hc : (decide (irq < 0) || decide (handlers.getD irq.toNat 0 = 0)) = true := by
      rcases h with h | h
      · simp [h]
      · rw [h]
        simp
    rw [if_pos hc]
  · intro handlers irq task hok
    unfold default_handler at hok
    by_cases hc : (decide (irq < 0) || decide (handlers.getD irq.toNat 0 = 0)) = true
    · rw [if_pos hc] at hok
      exact absurd hok (by simp)
    · rw [if_neg hc] at hok
      have heq := Except.ok.inj hok
      have hc2 : ¬ irq < 0 ∧ ¬ handlers.getD irq.toNat 0 = 0 := by
        constructor
        · intro hlt
          exact hc (by simp [hlt])
        · intro he
          exact hc (by rw [he]; simp)
      exact ⟨heq.symm, heq ▸ hc2.2, le_of_not_lt hc2.1⟩
  · intro i
    show (List.replicate 32 (0 : Int)).getD i 0 = 0
    rw [List.getD_eq_getElem?_getD]
    exact List.getElem?_getD_replicate_default_eq _ _ _

/-- Witness for default_handler_spec at concrete inputs. -/
theorem default_handler_spec_witness :
    default_handler os_handler_init 7 =
      Except.error ("Unexpected interrupt " ++ toString (7 : Int)) ∧
    ((5 : Int) = (os_handler_init.set 7 5).getD (7 : Int).toNat 0 ∧
      (5 : Int) ≠ 0 ∧ (0 : Int) ≤ 7) ∧
    os_handler_init.getD 11 0 = 0 := by
  have h := default_handler_spec
  exact ⟨h.1 os_handler_init 7 (Or.inr (by decide)),
    h.2.1 (os_handler_init.set 7 5) 7 5 rfl, h.2.2 11⟩

/-- Claim C6: when interrupt(dest) finds its destination not in a receive
accepting INTERRUPT it only sets the pending flag; and a receive by a
process with the pending flag set, filtering on ANY or INTERRUPT, clears
the flag and returns immediately — same current process, state and sender
queue untouched, every other descriptor and the ready queues untouched —
delivering a message whose sender is HARDWARE and type INTERRUPT with the
buffer body unchanged (and writing nothing for a NULL buffer).  Hence no
interrupt notification is lost. -/
theorem interrupt_pending_spec :
    (∀ (k : Kernel) (dest : Nat), accept k dest INTERRUPT = false →
       interrupt_step k dest = upd k dest (fun r => { r with p_pending := true })) ∧
    (∀ (k : Kernel) (type : Int) (msg : Option Nat) (c : Nat),
       k.current = some c → c < k.procs.length →
       (k.proc c).p_pending = true → (type = ANY ∨ type = INTERRUPT) →
       (mini_receive k type msg).current = k.current ∧
       ((mini_receive k type msg).proc c).p_pending = false ∧
       ((mini_receive k type msg).proc c).p_state = (k.proc c).p_state ∧
       ((mini_receive k type msg).proc c).p_waiting = (k.proc c).p_waiting ∧
       (∀ j, j ≠ c → (mini_receive k type msg).proc j = k.proc j) ∧
       (mini_receive k type msg).readyq = k.readyq ∧
       (∀ b, msg = some b → b < k.mem.length →
          ((mini_receive k type msg).mem.getD b default).m_sender = HARDWARE ∧
          ((mini_receive k type msg).mem.getD b default).m_type = INTERRUPT ∧
          ((mini_receive k type msg).mem.getD b default).m_body =
            (k.mem.getD b default).m_body) ∧
       (msg = none → (mini_receive k type msg).mem = k.mem)) := by
  constructor
  · intro k dest hacc
    unfold interrupt_step
    rw [hacc]
    rfl
  · intro k type msg c hcur hlen hpend hty
    have hc : osCurrent k = c := osCurrent_eq hcur
    have hcond : ((k.proc (osCurrent k)).p_pending &&
        (decide (type = ANY) || decide (type = INTERRUPT))) = true := by
      rw [hc, hpend]
      rcases hty with h | h <;> simp [h]
    have hred : mini_receive k type msg =
        deliver (upd k (osCurrent k) fun r => { r with p_pending := false })
          msg HARDWARE INTERRUPT none := by
      simp only [mini_receive]
      rw [hcond]
      simp
    rw [hred]
    set k1 := upd k (osCurrent k) (fun r => { r with p_pending := false }) with hk1
    have hproc1 : k1.proc c = { k.proc c with p_pending := false } := by
      rw [hk1, hc, proc_upd_self _ _ _ hlen]
    refine ⟨?_, ?_, ?_, ?_, ?_, ?_, ?_, ?_⟩
    · rw [deliver_current, hk1, upd_current]
    · rw [deliver_proc, hproc1]
    · rw [deliver_proc, hproc1]
    · rw [deliver_proc, hproc1]
    · intro j hj
      rw [deliver_proc, hk1, hc, proc_upd_ne _ _ hj]
    · rw [deliver_readyq, hk1, upd_readyq]
    · intro b hb hblen
      subst hb
      have hm1 : k1.mem = k.mem := by rw [hk1, upd_mem]
      unfold deliver
      simp only [hm1]
      refine ⟨?_, ?_, ?_⟩
      · rw [getD_set_self _ _ _ _ hblen]
      · rw [getD_set_self _ _ _ _ hblen]
      · rw [getD_set_self _ _ _ _ hblen]
    · intro hb
      subst hb
      unfold deliver
      rw [hk1, upd_mem]

/-- Witness for interrupt_pending_spec: raising an interrupt for process 1
of c4K (which is ACTIVE, not receiving) sets only its pending flag; a
pending receive(ANY) on a concrete state delivers HARDWARE and INTERRUPT
headers, keeping the body. -/
theorem interrupt_pending_spec_witness :
    interrupt_step c4K 1 = upd c4K 1 (fun r => { r with p_pending := true }) ∧
    ((mini_receive (upd c4K 1 fun r => { r with p_pending := true }) ANY
        (some 0)).mem.getD 0 default).m_sender = HARDWARE ∧
    ((mini_receive (upd c4K 1 fun r => { r with p_pending := true }) ANY
        (some 0)).mem.getD 0 default).m_type = INTERRUPT ∧
    ((mini_receive (upd c4K 1 fun r => { r with p_pending := true }) ANY
        (some 0)).mem.getD 0 default).m_body =
      ((upd c4K 1 fun r => { r with p_pending := true }).mem.getD 0 default).m_body := by
  have h := interrupt_pending_spec
  have h2 := h.2 (upd c4K 1 fun r => { r with p_pending := true }) ANY (some 0) 1
    (by decide) (by decide) (by decide) (Or.inl rfl)
  have h3 := h2.2.2.2.2.2.2.1 0 rfl (by decide)
  exact ⟨h.1 c4K 1 (by decide), h3.1, h3.2.1, h3.2.2⟩

/-- Claim C5 fails as stated: with dest = 99 out of range, the table entry
os_ptable[99] is loaded before the range validation runs (microbian.c line
209 precedes line 211), an out-of-range access of the 32-entry table. -/
theorem send_validation_cex : ¬ sendValidationClaim (os_init []) 99 := by
  intro h
  have h2 := (h (by decide)).2 99 (by decide)
  exact absurd h2.2 (by decide)

/-- Amended claim C5: send and sendrec to an out-of-range or DEAD
destination panic with the diagnostic naming the destination and perform no
state change (the panic is the whole effect); a valid destination never
panics in validation; the diagnostic literally contains the destination
number; and the descriptor itself is only dereferenced (p_state read) for
an in-range destination — but the table-entry POINTER is loaded before
validation, which the stated claim wrongly ruled out. -/
theorem send_validation_amended :
    ∀ (k : Kernel) (dest type : Int) (msg : Option Nat),
      (destValid k dest = false →
         mini_send k dest type msg = Except.error (nonexistentMsg dest) ∧
         mini_sendrec k dest type msg = Except.error (nonexistentMsg dest)) ∧
      (destValid k dest = true →
         (∃ k1, mini_send k dest type msg = Except.ok k1) ∧
         (∃ k2, mini_sendrec k dest type msg = Except.ok k2)) ∧
      nonexistentMsg dest = "Sending to a non-existent process " ++ toString dest ∧
      (∀ a ∈ mini_send_state_reads k.procs.length dest,
         0 ≤ a ∧ a < (k.procs.length : Int)) := by
  intro k dest type msg
  refine ⟨?_, ?_, rfl, ?_⟩
  · intro hv
    unfold destValid at hv
    rw [Bool.not_eq_false'] at hv
    constructor
    · simp only [mini_send]
      rw [hv]
      simp
    · simp only [mini_sendrec]
      rw [hv]
      simp
  · intro hv
    unfold destValid at hv
    rw [Bool.not_eq_true'] at hv
    constructor
    · simp only [mini_send]
      rw [hv]
      simp only [Bool.false_eq_true, if_false]
      by_cases ha : accept k dest.toNat type = true
      · rw [if_pos ha]
        exact ⟨_, rfl⟩
      · rw [if_neg ha]
        exact ⟨_, rfl⟩
    · simp only [mini_sendrec]
      rw [hv]
      simp only [Bool.false_eq_true, if_false]
      exact ⟨_, rfl⟩
  · intro a ha
    unfold mini_send_state_reads at ha
    split at ha
    · rename_i hr
      rw [List.mem_singleton] at ha
      subst ha
      exact hr
    · exact absurd ha (by simp)

/-- Witness for send_validation_amended: sending to PID 99 with only the
idle process in the table panics with a diagnostic containing 99. -/
theorem send_validation_amended_witness :
    mini_send (os_init []) 99 0 none = Except.error (nonexistentMsg 99) ∧
    mini_sendrec (os_init []) 99 0 none = Except.error (nonexistentMsg 99) ∧
    nonexistentMsg 99 = "Sending to a non-existent process 99" := by
  have h := send_validation_amended (os_init []) 99 0 none
  have h1 := h.1 (by decide)
  exact ⟨h1.1, h1.2, rfl⟩

theorem choose_proc_current_q0 {k : Kernel} {h : Nat}
    (hh : (getq k 0).q_head = some h) : (choose_proc k).current = some h := by
  simp only [choose_proc, hh]

theorem getq_make_ready_ne {k : Kernel} {p prio j : Nat} (hj : j ≠ prio) :
    getq (make_ready k p prio) j = getq k j := by
  simp only [make_ready]
  split
  · rfl
  · split
    · rw [getq_setq_ne _ _ hj]
      rfl
    · rw [getq_setq_ne _ _ hj]
      rfl

theorem make_ready_q_empty {k : Kernel} {p prio : Nat} (h3 : prio ≠ P_IDLE)
    (hq : prio < k.readyq.length) (hh : (getq k prio).q_head = none) :
    getq (make_ready k p prio) prio = ⟨some p, some p⟩ := by
  simp only [make_ready]
  rw [if_neg h3]
  have hh1 : (getq (upd k p fun r =>
      { r with p_state := ACTIVE, p_next := none }) prio).q_head = none := hh
  rw [hh1]
  exact getq_setq_self _ _ _ hq

theorem make_ready_proc_ne_empty {k : Kernel} {p prio j : Nat}
    (h3 : prio ≠ P_IDLE) (hh : (getq k prio).q_head = none) (hj : j ≠ p) :
    (make_ready k p prio).proc j = k.proc j := by
  simp only [make_ready]
  rw [if_neg h3]
  have hh1 : (getq (upd k p fun r =>
      { r with p_state := ACTIVE, p_next := none }) prio).q_head = none := hh
  rw [hh1]
  rw [proc_setq]
  exact proc_upd_ne _ _ hj

theorem make_ready_idle_id (k : Kernel) (p : Nat) : make_ready k p P_IDLE = k := by
  simp [make_ready]

theorem osCurrent_make_ready (k : Kernel) (p prio : Nat) :
    osCurrent (make_ready k p prio) = osCurrent k := by
  unfold osCurrent
  rw [make_ready_current]

/-- Claim C4 fails as stated on the send path: in c4K the running sender
(PID 1, priority 2) wakes the waiting receiver (PID 2, priority 0), yet
after the send syscall step the resumed current process is still the
sender while the higher-priority receiver sits on ready queue 0. -/
theorem send_no_preemption_cex : ¬ sendPreemptsClaim c4K 2 5 (some 1) := by
  intro h
  have h2 := h c4K1 rfl 2 (by decide)
  exact absurd h2 (by decide)

/-- Amended claim C4: an interrupt that wakes a waiting handler while a
process of priority > 0 runs does preempt — interrupt() requests a
reschedule and the woken handler becomes the current process; but a send
that wakes a waiting higher-priority receiver does NOT preempt: the
sender remains the current process past the syscall return, and the woken
receiver is merely appended (ACTIVE) at the tail of the ready queue of its
priority, running only at the sender's next yield point. -/
theorem preemption_amended :
    (∀ (k : Kernel) (dest : Nat),
       k.readyq.length = 3 →
       dest ≠ osCurrent k →
       accept k dest INTERRUPT = true →
       0 < (k.proc (osCurrent k)).p_priority →
       (getq k 0).q_head = none →
       (interrupt_step k dest).current = some dest) ∧
    (∀ (k k' : Kernel) (dest type : Int) (msg : Option Nat),
       k.readyq.length = 3 →
       mini_send k dest type msg = Except.ok k' →
       0 ≤ dest →
       accept k dest.toNat type = true →
       (k.proc dest.toNat).p_priority < 3 →
       k'.current = k.current ∧
       (k'.proc dest.toNat).p_state = ACTIVE ∧
       (getq k' ((k.proc dest.toNat).p_priority)).q_tail = some dest.toNat) := by
  constructor
  · intro k dest hq3 hne hacc hpr hq0
    have hred : interrupt_step k dest =
        (if 0 < ((make_ready (deliver k (k.proc dest).p_message HARDWARE INTERRUPT none)
              dest P_HANDLER).proc
            (osCurrent (make_ready (deliver k (k.proc dest).p_message HARDWARE INTERRUPT none)
              dest P_HANDLER))).p_priority then
          cxt_switch (make_ready (deliver k (k.proc dest).p_message HARDWARE INTERRUPT none)
            dest P_HANDLER)
        else
          make_ready (deliver k (k.proc dest).p_message HARDWARE INTERRUPT none)
            dest P_HANDLER) := by
      simp only [interrupt_step]
      rw [hacc]
      simp
    set k1 := deliver k (k.proc dest).p_message HARDWARE INTERRUPT none with hk1
    have hq0' : (getq k1 0).q_head = none := by
      rw [hk1, getq_deliver]
      exact hq0
    have hq31 : k1.readyq.length = 3 := by
      rw [hk1, deliver_readyq]
      exact hq3
    set k2 := make_ready k1 dest P_HANDLER with hk2
    have hcur2 : osCurrent k2 = osCurrent k := by
      rw [hk2, osCurrent_make_ready, hk1, osCurrent_deliver]
    have hq02 : getq k2 0 = ⟨some dest, some dest⟩ := by
      rw [hk2]
      exact make_ready_q_empty (by decide) (by rw [hq31]; decide) hq0'
    have hpr2 : ((k2.proc (osCurrent k2)).p_priority) =
        (k.proc (osCurrent k)).p_priority := by
      rw [hcur2, hk2,
        @make_ready_proc_ne_empty k1 dest P_HANDLER (osCurrent k) (by decide) hq0'
          (Ne.symm hne),
        hk1, deliver_proc]
    rw [hred, if_pos (by rw [hpr2]; exact hpr)]
    unfold cxt_switch
    apply choose_proc_current_q0
    by_cases h3 : (k2.proc (osCurrent k2)).p_priority = P_IDLE
    · rw [h3, make_ready_idle_id, hq02]
    · rw [getq_make_ready_ne (by rw [hpr2]; rw [hpr2] at h3; omega), hq02]
  · intro k k' dest type msg hq3 hok h0 hacc hpr
    have hd : dest.toNat < k.procs.length := accept_lt hacc
    have hstate := (accept_unfold hacc).1
    unfold mini_send at hok
    have hc1 : ¬ dest < 0 := by omega
    have hc2 : ¬ (k.procs.length : Int) ≤ dest := by omega
    have hc3 : (k.proc dest.toNat).p_state ≠ DEAD := by
      rw [hstate]
      decide
    simp only [hc1, hc2, hc3, decide_False, Bool.false_or, Bool.or_self,
      Bool.false_eq_true, if_false, decide_eq_true_eq, if_neg, hacc, if_true,
      Bool.or_false, not_false_eq_true] at hok
    have hk' := (Except.ok.inj hok).symm
    subst hk'
    set k1 := deliver k (k.proc dest.toNat).p_message
        ((k.proc (osCurrent k)).p_pid : Int) type msg with hk1
    have hprio1 : (k1.proc dest.toNat).p_priority = (k.proc dest.toNat).p_priority := by
      rw [hk1, deliver_proc]
    have hP : P_IDLE = 3 := rfl
    refine ⟨?_, ?_, ?_⟩
    · rw [make_ready_current, hk1, deliver_current]
    · exact make_ready_state _ _ _ (by rw [hk1, deliver_procs]; exact hd)
        (by rw [hprio1]; omega)
    · rw [← hprio1]
      exact make_ready_tail _ _ _ (by rw [hprio1]; omega)
        (by rw [hprio1, hk1, deliver_readyq, hq3]; omega)

/-- Witness for preemption_amended at concrete states: the interrupt path
preempts the low-priority process 1 of c10K in favour of handler 2, and
the send path of c4K leaves the sender current with receiver 2 ACTIVE at
the tail of ready queue 0. -/
theorem preemption_amended_witness :
    (interrupt_step c10K 2).current = some 2 ∧
    c4K1.current = c4K.current ∧
    (c4K1.proc 2).p_state = ACTIVE ∧
    (getq c4K1 ((c4K.proc 2).p_priority)).q_tail = some 2 := by
  have h := preemption_amended
  have ha := h.1 c10K 2 (by decide) (by decide) (by decide) (by decide) (by decide)
  have hb := h.2 c4K c4K1 2 5 (some 1) (by decide) rfl (by decide) (by decide) (by decide)
  exact ⟨ha, hb.1, hb.2.1, hb.2.2⟩

/-- Claim C1 is violated by the code: receiver 1 of c1K consumes the queued
SENDREC sender 2 (originally sendrec with buffer 1); the sender is indeed
transitioned to RECEIVING with filter REPLY and left on no list, but its
message-buffer reference is set to the RECEIVER buffer (0), not the buffer
it passed to sendrec (1) — microbian.c line 253 passes msg instead of
psrc->p_message — so a later REPLY lands in the wrong buffer. -/
theorem receive_sendrec_buffer_bug :
    (c1K.proc 2).p_state = SENDREC ∧
    (c1K.proc 2).p_message = some 1 ∧
    ((mini_receive c1K ANY (some 0)).proc 2).p_state = RECEIVING ∧
    ((mini_receive c1K ANY (some 0)).proc 2).p_msgtype = REPLY ∧
    ((mini_receive c1K ANY (some 0)).proc 2).p_message = some 0 ∧
    onReady (mini_receive c1K ANY (some 0)) 2 = false ∧
    onSenderQ (mini_receive c1K ANY (some 0)) 2 = false := by
  decide

/-- Claim C2 is violated by the code: in c2K the receiver filters on type
20 and the first matching sender (PID 3) sits in the middle of the queue;
delivery happens, but the splice writes the p_next of the RECEIVER
(microbian.c line 245) instead of the predecessor, so sender 3 stays
chained on the sender queue while also being made ready, and a third
receive delivers sender 3 a second time. -/
theorem receive_splice_double_delivery :
    (c2K1.mem.getD 0 default).m_sender = 3 ∧
    (c2K1.mem.getD 0 default).m_type = 20 ∧
    (c2K1.proc 1).p_waiting = some 2 ∧
    (c2K1.proc 2).p_next = some 3 ∧
    onSenderQ c2K1 3 = true ∧
    onReady c2K1 3 = true ∧
    (c2K2.mem.getD 0 default).m_sender = 2 ∧
    (c2K3.mem.getD 0 default).m_sender = 3 := by
  decide

/-- Claim C3 is violated by the code: c3final is reachable from os_init via
start, os_start, two sends and a receive, and in it descriptor 2 (state
ACTIVE) is linked both on a ready queue and on the sender queue of
process 3 — consequence of the receive splice writing the receiver p_next
(microbian.c line 245). -/
theorem reachable_two_lists :
    Reachable c3final ∧
    onReady c3final 2 = true ∧
    onSenderQ c3final 2 = true ∧
    (c3final.proc 2).p_state = ACTIVE := by
  refine ⟨?_, by decide, by decide, by decide⟩
  have h0 : Reachable c3k0 := Reachable.init c3mem
  have h1 : Reachable c3k1 := Reachable.startp "S1" 100 0 64 h0 rfl
  have h2 : Reachable c3k2 := Reachable.startp "S2" 100 0 64 h1 rfl
  have h3 : Reachable c3k3 := Reachable.startp "R" 100 0 64 h2 rfl
  have h4 : Reachable c3k4 := Reachable.ostart h3 rfl
  have h5 : Reachable c3k5 := Reachable.sendp 3 10 (some 1) h4 rfl (by decide) rfl
  have h6 : Reachable c3k6 := Reachable.sendp 3 20 (some 2) h5 rfl (by decide) rfl
  exact Reachable.recvp 20 (some 0) h6 rfl (by decide)

theorem getq_prop {P : Queue → Prop} {k : Kernel}
    (h : ∀ q ∈ k.readyq, P q) (hd : P (default : Queue)) (i : Nat) :
    P (getq k i) := by
  unfold getq
  by_cases hi : i < k.readyq.length
  · rw [List.getD_eq_getElem _ _ hi]
    exact h _ (List.getElem_mem hi)
  · rw [List.getD_eq_default _ _ (Nat.le_of_not_lt hi)]
    exact hd

theorem noIdle_proc_next {k : Kernel} (h : NoIdle k) (i : Nat) :
    (k.proc i).p_next ≠ some 0 :=
  proc_prop (fun p hp => (h.1 p hp).1) (by rw [default_proc_next]; exact fun he => by cases he) i

theorem noIdle_proc_waiting {k : Kernel} (h : NoIdle k) (i : Nat) :
    (k.proc i).p_waiting ≠ some 0 :=
  proc_prop (fun p hp => (h.1 p hp).2) (by rw [default_proc_waiting]; exact fun he => by cases he) i

theorem noIdle_getq {k : Kernel} (h : NoIdle k) (i : Nat) :
    (getq k i).q_head ≠ some 0 ∧ (getq k i).q_tail ≠ some 0 :=
  getq_prop h.2.1 ⟨(fun he => by cases he), (fun he => by cases he)⟩ i

theorem noIdle_upd {k : Kernel} {i : Nat} {f : Proc → Proc} (h : NoIdle k)
    (hnext : (f (k.proc i)).p_next ≠ some 0)
    (hwait : (f (k.proc i)).p_waiting ≠ some 0)
    (hstate : i = 0 → (f (k.proc i)).p_state = IDLING)
    (hprio : i = 0 → (f (k.proc i)).p_priority = P_IDLE) :
    NoIdle (upd k i f) := by
  obtain ⟨h1, h2, h3, h4, h5⟩ := h
  refine ⟨?_, h2, ?_, ?_, ?_⟩
  · intro p hp
    rcases List.mem_or_eq_of_mem_set hp with hp | hp
    · exact h1 p hp
    · subst hp
      exact ⟨hnext, hwait⟩
  · by_cases hi : i = 0
    · subst hi
      rw [proc_upd_self _ _ _ h5]
      exact hstate rfl
    · rw [proc_upd_ne _ _ (Ne.symm hi)]
      exact h3
  · by_cases hi : i = 0
    · subst hi
      rw [proc_upd_self _ _ _ h5]
      exact hprio rfl
    · rw [proc_upd_ne _ _ (Ne.symm hi)]
      exact h4
  · rw [upd_procs, List.length_set]
    exact h5

theorem noIdle_setq {k : Kernel} {i : Nat} {q : Queue} (h : NoIdle k)
    (hq : q.q_head ≠ some 0 ∧ q.q_tail ≠ some 0) : NoIdle (setq k i q) := by
  obtain ⟨h1, h2, h3, h4, h5⟩ := h
  refine ⟨h1, ?_, h3, h4, h5⟩
  intro r hr
  rcases List.mem_or_eq_of_mem_set hr with hr | hr
  · exact h2 r hr
  · subst hr
    exact hq

theorem noIdle_deliver {k : Kernel} {buf : Option Nat} {src type : Int}
    {msg : Option Nat} (h : NoIdle k) : NoIdle (deliver k buf src type msg) := by
  cases buf
  · exact h
  · exact h

theorem noIdle_with_current {k : Kernel} {c : Option Nat} (h : NoIdle k) :
    NoIdle { k with current := c } := h

theorem noIdle_make_ready {k : Kernel} {p prio : Nat} (h : NoIdle k)
    (hp : p = 0 → prio = P_IDLE) : NoIdle (make_ready k p prio) := by
  by_cases h3 : prio = P_IDLE
  · rw [show make_ready k p prio = k from by simp [make_ready, h3]]
    exact h
  · have hp0 : p ≠ 0 := fun he => h3 (hp he)
    simp only [make_ready, if_neg h3]
    have hn1 : NoIdle (upd k p fun r => { r with p_state := ACTIVE, p_next := none }) :=
      noIdle_upd h (fun he => by cases he) (noIdle_proc_waiting h p)
        (fun he => absurd he hp0) (fun he => absurd he hp0)
    set k1 := upd k p fun r => { r with p_state := ACTIVE, p_next := none } with hk1
    cases hh : (getq k1 prio).q_head with
    | none =>
        exact noIdle_setq hn1 ⟨(fun he => hp0 (Option.some.inj he)),
          (fun he => hp0 (Option.some.inj he))⟩
    | some v =>
        have hv : some v ≠ some 0 := by
          have hx := (noIdle_getq hn1 prio).1
          rw [hh] at hx
          exact hx
        apply noIdle_setq
        · apply noIdle_upd hn1 (fun he => hp0 (Option.some.inj he))
            (noIdle_proc_waiting hn1 _)
          · intro he
            rw [he]
            exact hn1.2.2.1
          · intro he
            rw [he]
            exact hn1.2.2.2.1
        · exact ⟨hv, (fun he => hp0 (Option.some.inj he))⟩

theorem noIdle_choose {k : Kernel} (h : NoIdle k) : NoIdle (choose_proc k) := by
  simp only [choose_proc]
  split
  · rename_i v hv
    exact noIdle_with_current (noIdle_setq h ⟨noIdle_proc_next h v, (noIdle_getq h 0).2⟩)
  · split
    · rename_i v hv
      exact noIdle_with_current (noIdle_setq h ⟨noIdle_proc_next h v, (noIdle_getq h 1).2⟩)
    · split
      · rename_i v hv
        exact noIdle_with_current (noIdle_setq h ⟨noIdle_proc_next h v, (noIdle_getq h 2).2⟩)
      · exact noIdle_with_current h

theorem osCurrent_set_state (k : Kernel) (p s : Nat) (t : Int) (m : Option Nat) :
    osCurrent (set_state k p s t m) = osCurrent k := rfl

theorem noIdle_set_state {k : Kernel} {c s : Nat} {t : Int} {m : Option Nat}
    (h : NoIdle k) (hc : c ≠ 0) : NoIdle (set_state k c s t m) := by
  unfold set_state
  exact noIdle_upd h (noIdle_proc_next h c) (noIdle_proc_waiting h c)
    (fun he => absurd he hc) (fun he => absurd he hc)

theorem noIdle_enqueue {k : Kernel} {dest : Nat} (h : NoIdle k)
    (hc : osCurrent k ≠ 0) : NoIdle (enqueue k dest) := by
  simp only [enqueue]
  have hn1 : NoIdle (upd k (osCurrent k) fun r => { r with p_next := none }) :=
    noIdle_upd h (fun he => by cases he) (noIdle_proc_waiting h _)
      (fun he => absurd he hc) (fun he => absurd he hc)
  set k1 := upd k (osCurrent k) fun r => { r with p_next := none } with hk1
  cases hw : (k1.proc dest).p_waiting with
  | none =>
      exact noIdle_upd hn1 (noIdle_proc_next hn1 dest)
        (fun he => hc (Option.some.inj he))
        (fun he => by rw [he]; exact hn1.2.2.1)
        (fun he => by rw [he]; exact hn1.2.2.2.1)
  | some r0 =>
      exact noIdle_upd hn1 (fun he => hc (Option.some.inj he))
        (noIdle_proc_waiting hn1 _)
        (fun he => by rw [he]; exact hn1.2.2.1)
        (fun he => by rw [he]; exact hn1.2.2.2.1)

theorem noIdle_rcv_found {k : Kernel} {msg : Option Nat} {s : Nat}
    {prev : Option Nat} (h : NoIdle k) (hc : osCurrent k ≠ 0) (hs : s ≠ 0) :
    NoIdle (rcv_found k msg s prev) := by
  simp only [rcv_found]
  have hsn : (k.proc s).p_next ≠ some 0 := noIdle_proc_next h s
  have hn1 : NoIdle (match prev with
      | none => upd k (osCurrent k) fun r => { r with p_waiting := (k.proc s).p_next }
      | some _ => upd k (osCurrent k) fun r => { r with p_next := (k.proc s).p_next }) := by
    cases prev with
    | none =>
        exact noIdle_upd h (noIdle_proc_next h _) hsn
          (fun he => absurd he hc) (fun he => absurd he hc)
    | some x =>
        exact noIdle_upd h hsn (noIdle_proc_waiting h _)
          (fun he => absurd he hc) (fun he => absurd he hc)
  set k1 := (match prev with
      | none => upd k (osCurrent k) fun r => { r with p_waiting := (k.proc s).p_next }
      | some _ => upd k (osCurrent k) fun r => { r with p_next := (k.proc s).p_next })
    with hk1
  have hn2 : NoIdle (deliver k1 msg ((k1.proc s).p_pid : Int) (k1.proc s).p_msgtype
      (k1.proc s).p_message) := noIdle_deliver hn1
  split
  · exact noIdle_make_ready hn2 (fun he => absurd he hs)
  · exact noIdle_set_state hn2 hs

theorem noIdle_rcv_scan {k : Kernel} {type : Int} {msg : Option Nat}
    (h : NoIdle k) (hc : osCurrent k ≠ 0) :
    ∀ (fuel : Nat) (st prev : Option Nat), st ≠ some 0 →
      ∀ k', rcv_scan k type msg st prev fuel = some k' → NoIdle k' := by
  intro fuel
  induction fuel with
  | zero =>
      intro st prev hst k' hk'
      cases st <;> simp [rcv_scan] at hk'
  | succ n ih =>
      intro st prev hst k' hk'
      cases st with
      | none => simp [rcv_scan] at hk'
      | some s =>
          have hs : s ≠ 0 := fun he => hst (by rw [he])
          rw [rcv_scan] at hk'
          split at hk'
          · have := Option.some.inj hk'
            rw [← this]
            exact noIdle_rcv_found h hc hs
          · exact ih _ (some s) (noIdle_proc_next h s) k' hk'

theorem noIdle_receive {k : Kernel} {type : Int} {msg : Option Nat}
    (h : NoIdle k) (hc : osCurrent k ≠ 0) : NoIdle (mini_receive k type msg) := by
  simp only [mini_receive]
  split
  · exact noIdle_deliver (noIdle_upd h (noIdle_proc_next h _) (noIdle_proc_waiting h _)
      (fun he => absurd he hc) (fun he => absurd he hc))
  · split
    · rename_i k1 hk1
      split at hk1
      · exact noIdle_rcv_scan h hc NPROCS _ none (noIdle_proc_waiting h _) k1 hk1
      · exact absurd hk1 (by simp)
    · exact noIdle_choose (noIdle_set_state h hc)

theorem noIdle_accept_ne_zero {k : Kernel} {d : Nat} {type : Int}
    (h : NoIdle k) (hacc : accept k d type = true) : d ≠ 0 := by
  intro he
  have hst := (accept_unfold hacc).1
  rw [he] at hst
  exact absurd (h.2.2.1.symm.trans hst) (by decide)

theorem noIdle_send {k k' : Kernel} {dest type : Int} {msg : Option Nat}
    (h : NoIdle k) (hc : osCurrent k ≠ 0)
    (hok : mini_send k dest type msg = Except.ok k') : NoIdle k' := by
  simp only [mini_send] at hok
  split at hok
  · exact absurd hok (by simp)
  · split at hok
    · rename_i hacc
      have := Except.ok.inj hok
      rw [← this]
      exact noIdle_make_ready (noIdle_deliver h)
        (fun he => absurd he (noIdle_accept_ne_zero h hacc))
    · have := Except.ok.inj hok
      rw [← this]
      exact noIdle_choose (noIdle_enqueue (noIdle_set_state h hc) hc)

theorem noIdle_sendrec {k k' : Kernel} {dest type : Int} {msg : Option Nat}
    (h : NoIdle k) (hc : osCurrent k ≠ 0)
    (hok : mini_sendrec k dest type msg = Except.ok k') : NoIdle k' := by
  simp only [mini_sendrec] at hok
  split at hok
  · exact absurd hok (by simp)
  · have := Except.ok.inj hok
    rw [← this]
    apply noIdle_choose
    split
    · rename_i hacc
      apply noIdle_set_state
      · exact noIdle_make_ready (noIdle_deliver h)
          (fun he => absurd he (noIdle_accept_ne_zero h hacc))
      · rw [osCurrent_make_ready, osCurrent_deliver]
        exact hc
    · exact noIdle_enqueue (noIdle_set_state h hc) hc

theorem noIdle_interrupt {k : Kernel} {dest : Nat} (h : NoIdle k)
    (hdest : dest ≠ 0) : NoIdle (interrupt_step k dest) := by
  simp only [interrupt_step]
  split
  · have hn2 : NoIdle (make_ready (deliver k (k.proc dest).p_message HARDWARE
        INTERRUPT none) dest P_HANDLER) :=
      noIdle_make_ready (noIdle_deliver h) (fun he => absurd he hdest)
    split
    · unfold cxt_switch
      apply noIdle_choose
      apply noIdle_make_ready hn2
      intro he
      rw [he]
      exact hn2.2.2.2.1
    · exact hn2
  · exact noIdle_upd h (noIdle_proc_next h _) (noIdle_proc_waiting h _)
      (fun he => by rw [he]; exact h.2.2.1)
      (fun he => by rw [he]; exact h.2.2.2.1)

theorem noIdle_yield {k : Kernel} (h : NoIdle k) : NoIdle (yield_step k) := by
  unfold yield_step
  apply noIdle_choose
  apply noIdle_make_ready h
  intro he
  rw [he]
  exact h.2.2.2.1

theorem noIdle_exit {k : Kernel} (h : NoIdle k) (hc : osCurrent k ≠ 0) :
    NoIdle (exit_step k) := by
  unfold exit_step
  exact noIdle_choose (noIdle_upd h (noIdle_proc_next h _) (noIdle_proc_waiting h _)
    (fun he => absurd he hc) (fun he => absurd he hc))

theorem noIdle_os_start {k : Kernel} (h : NoIdle k) : NoIdle (os_start_step k) := by
  unfold os_start_step
  exact noIdle_yield (noIdle_with_current h)

theorem noIdle_append_fresh {k : Kernel} (h : NoIdle k) {p : Proc}
    (hn : p.p_next ≠ some 0) (hw : p.p_waiting ≠ some 0) :
    NoIdle { k with procs := k.procs ++ [p] } := by
  obtain ⟨h1, h2, h3, h4, h5⟩ := h
  have hget : ∀ P : Proc → Prop, P (k.proc 0) →
      P (({ k with procs := k.procs ++ [p] } : Kernel).proc 0) := by
    intro P hP
    show P ((k.procs ++ [p]).getD 0 default)
    rw [getD_snoc_lt _ _ _ h5]
    exact hP
  refine ⟨?_, h2, hget (fun r => r.p_state = IDLING) h3,
    hget (fun r => r.p_priority = P_IDLE) h4, ?_⟩
  · intro x hx
    rcases List.mem_append.mp hx with hx | hx
    · exact h1 x hx
    · rw [List.mem_singleton] at hx
      subst hx
      exact ⟨hn, hw⟩
  · show 0 < (k.procs ++ [p]).length
    rw [List.length_append]
    omega

theorem init_proc_some {k : Kernel} (name : String) (s : Nat)
    (hlen : k.procs.length < NPROCS) :
    init_proc k name s =
      some ({ k with procs := k.procs ++ [newProcRec k.procs.length name s] },
        k.procs.length) := by
  unfold init_proc
  rw [if_neg (by omega)]

theorem start_none_full {k : Kernel} {name : String} {body : Nat} {arg : Int}
    {stk : Nat} (h : NPROCS ≤ k.procs.length) :
    start k name body arg stk = none := by
  unfold start init_proc
  rw [if_pos h]

theorem start_none_started {k : Kernel} {name : String} {body : Nat} {arg : Int}
    {stk : Nat} (hlen : k.procs.length < NPROCS) (h : k.current ≠ none) :
    start k name body arg stk = none := by
  unfold start
  rw [init_proc_some _ _ hlen]
  exact if_pos h

/-- Reduction of a successful start: the new PID is the table index and the
kernel becomes the make_ready of the frame-initialised descriptor. -/
theorem start_some {k : Kernel} (name : String) (body : Nat) (arg : Int)
    (stk : Nat) (hlen : k.procs.length < NPROCS) (hcur : k.current = none) :
    start k name body arg stk =
      some (make_ready
        (upd { k with procs := k.procs ++
            [newProcRec k.procs.length name (roundup stk 8)] }
          k.procs.length
          (fun r => { r with
            p_sp := (({ k with procs := k.procs ++
                [newProcRec k.procs.length name (roundup stk 8)] } : Kernel).proc
                  k.procs.length).p_sp - 16
            p_stack := writeFrame r.p_stack
              ((({ k with procs := k.procs ++
                  [newProcRec k.procs.length name (roundup stk 8)] } : Kernel).proc
                    k.procs.length).p_sp - 16) body arg }))
        k.procs.length
        ((upd { k with procs := k.procs ++
            [newProcRec k.procs.length name (roundup stk 8)] }
          k.procs.length
          (fun r => { r with
            p_sp := (({ k with procs := k.procs ++
                [newProcRec k.procs.length name (roundup stk 8)] } : Kernel).proc
                  k.procs.length).p_sp - 16
            p_stack := writeFrame r.p_stack
              ((({ k with procs := k.procs ++
                  [newProcRec k.procs.length name (roundup stk 8)] } : Kernel).proc
                    k.procs.length).p_sp - 16) body arg })).proc
          k.procs.length).p_priority,
        k.procs.length) := by
  unfold start
  rw [init_proc_some _ _ hlen]
  exact if_neg (fun hne => hne hcur)

/-- Everything a successful start implies. -/
theorem start_inv {k k' : Kernel} {pid : Nat} {name : String} {body : Nat}
    {arg : Int} {stk : Nat}
    (heq : start k name body arg stk = some (k', pid)) :
    k.procs.length < NPROCS ∧ k.current = none ∧ pid = k.procs.length ∧
    k' = make_ready
      (upd { k with procs := k.procs ++
          [newProcRec k.procs.length name (roundup stk 8)] }
        k.procs.length
        (fun r => { r with
          p_sp := (({ k with procs := k.procs ++
              [newProcRec k.procs.length name (roundup stk 8)] } : Kernel).proc
                k.procs.length).p_sp - 16
          p_stack := writeFrame r.p_stack
            ((({ k with procs := k.procs ++
                [newProcRec k.procs.length name (roundup stk 8)] } : Kernel).proc
                  k.procs.length).p_sp - 16) body arg }))
      k.procs.length
      ((upd { k with procs := k.procs ++
          [newProcRec k.procs.length name (roundup stk 8)] }
        k.procs.length
        (fun r => { r with
          p_sp := (({ k with procs := k.procs ++
              [newProcRec k.procs.length name (roundup stk 8)] } : Kernel).proc
                k.procs.length).p_sp - 16
          p_stack := writeFrame r.p_stack
            ((({ k with procs := k.procs ++
                [newProcRec k.procs.length name (roundup stk 8)] } : Kernel).proc
                  k.procs.length).p_sp - 16) body arg })).proc
        k.procs.length).p_priority := by
  by_cases hlen : k.procs.length < NPROCS
  · by_cases hcur : k.current = none
    · rw [start_some name body arg stk hlen hcur] at heq
      simp only [Option.some.injEq, Prod.mk.injEq] at heq
      exact ⟨hlen, hcur, heq.2.symm, heq.1.symm⟩
    · rw [start_none_started hlen hcur] at heq
      cases heq
  · rw [start_none_full (by omega)] at heq
    cases heq

theorem noIdle_start {k k' : Kernel} {pid : Nat} {name : String} {body : Nat}
    {arg : Int} {stk : Nat} (h : NoIdle k)
    (heq : start k name body arg stk = some (k', pid)) : NoIdle k' := by
  obtain ⟨hlen, hcur, hpid, hk'⟩ := start_inv heq
  rw [hk']
  have hn1 : NoIdle { k with procs := k.procs ++
      [newProcRec k.procs.length name (roundup stk 8)] } :=
    noIdle_append_fresh h (fun he => by cases he) (fun he => by cases he)
  have hpid0 : k.procs.length ≠ 0 := by
    have := h.2.2.2.2
    omega
  apply noIdle_make_ready
  · exact noIdle_upd hn1 (noIdle_proc_next hn1 _) (noIdle_proc_waiting hn1 _)
      (fun he => absurd he hpid0) (fun he => absurd he hpid0)
  · intro he
    exact absurd he hpid0

theorem os_init_eq (mem : List Message) :
    os_init mem =
      { procs := [idleProcRec]
        readyq := q3
        current := none
        mem := mem } := rfl

theorem noIdle_os_init (mem : List Message) : NoIdle (os_init mem) := by
  rw [os_init_eq]
  refine ⟨?_, ?_, rfl, rfl, Nat.one_pos⟩
  · intro p hp
    rw [List.mem_singleton] at hp
    subst hp
    exact ⟨(fun he => by cases he), (fun he => by cases he)⟩
  · intro q hq
    have hq3 : q = (⟨none, none⟩ : Queue) := by simpa [q3] using hq
    subst hq3
    exact ⟨(fun he => by cases he), (fun he => by cases he)⟩

theorem reachable_noIdle : ∀ {k : Kernel}, Reachable k → NoIdle k := by
  intro k h
  induction h with
  | init mem => exact noIdle_os_init mem
  | startp name body arg stk hr heq ih => exact noIdle_start ih heq
  | ostart hr hc ih => exact noIdle_os_start ih
  | yieldp hr hc ih => exact noIdle_yield ih
  | sendp dest type msg hr hc h0 hok ih =>
      exact noIdle_send ih (by rw [osCurrent_eq hc]; exact h0) hok
  | recvp type msg hr hc h0 ih =>
      exact noIdle_receive ih (by rw [osCurrent_eq hc]; exact h0)
  | sendrecp dest type msg hr hc h0 hok ih =>
      exact noIdle_sendrec ih (by rw [osCurrent_eq hc]; exact h0) hok
  | exitp hr hc h0 ih =>
      exact noIdle_exit ih (by rw [osCurrent_eq hc]; exact h0)
  | interruptp dest hr hd hlen ih => exact noIdle_interrupt ih hd

theorem chainHas_zero {ps : List Proc} (hnext : ∀ p ∈ ps, p.p_next ≠ some 0) :
    ∀ (fuel : Nat) (h : Option Nat), h ≠ some 0 → chainHas ps h 0 fuel = false := by
  intro fuel
  induction fuel with
  | zero =>
      intro h hh
      cases h <;> rfl
  | succ n ih =>
      intro h hh
      cases h with
      | none => rfl
      | some s =>
          have hs : s ≠ 0 := fun he => hh (by rw [he])
          have hx : (ps.getD s default).p_next ≠ some 0 := by
            by_cases hl : s < ps.length
            · rw [List.getD_eq_getElem _ _ hl]
              exact hnext _ (List.getElem_mem hl)
            · rw [List.getD_eq_default _ _ (Nat.le_of_not_lt hl)]
              exact fun he => by cases he
          show (decide (s = 0) || chainHas ps (ps.getD s default).p_next 0 n) = false
          rw [ih _ hx, decide_eq_false hs]
          rfl

theorem noIdle_onReady {k : Kernel} (h : NoIdle k) : onReady k 0 = false := by
  unfold onReady
  rw [List.any_eq_false]
  intro i hi
  rw [Bool.not_eq_true]
  exact chainHas_zero (fun p hp => (h.1 p hp).1) NPROCS _ (noIdle_getq h i).1

theorem isChain_congr {ps ps' : List Proc} {l : List Nat}
    (hx : ∀ x ∈ l, (ps'.getD x default).p_next = (ps.getD x default).p_next) :
    ∀ h, isChain ps' h l = isChain ps h l := by
  induction l with
  | nil => intro h; rfl
  | cons x l ih =>
      intro h
      simp only [isChain]
      rw [hx x (List.mem_cons_self x l),
        ih (fun y hy => hx y (List.mem_cons_of_mem _ hy)) _]

theorem isChain_snoc {ps ps' : List Proc} {t p : Nat}
    (hlast : (ps'.getD t default).p_next = some p)
    (hnew : (ps'.getD p default).p_next = none) :
    ∀ (l : List Nat) (h : Option Nat), l.Nodup → l.getLast? = some t →
      (∀ x ∈ l, x ≠ t → (ps'.getD x default).p_next = (ps.getD x default).p_next) →
      isChain ps h l = true → isChain ps' h (l ++ [p]) = true := by
  intro l
  induction l with
  | nil =>
      intro h hnd ht hmid hch
      cases ht
  | cons x l2 ih =>
      intro h hnd ht hmid hch
      have hstep : isChain ps h (x :: l2) =
          (decide (h = some x) && isChain ps (ps.getD x default).p_next l2) := rfl
      rw [hstep, Bool.and_eq_true] at hch
      obtain ⟨hh, hch⟩ := hch
      cases l2 with
      | nil =>
          have hxt : x = t := by simpa using ht
          subst hxt
          have hstep2 : isChain ps' h ([x] ++ [p]) =
              (decide (h = some x) && (decide ((ps'.getD x default).p_next = some p) &&
                decide ((ps'.getD p default).p_next = none))) := rfl
          rw [hstep2, hh, hlast, hnew]
          simp
      | cons y l3 =>
          have ht' : (y :: l3).getLast? = some t := by
            rwa [List.getLast?_cons_cons] at ht
          have hxt : x ≠ t := by
            intro he
            have htm : t ∈ y :: l3 := List.mem_of_getLast?_eq_some ht'
            exact (List.nodup_cons.mp hnd).1 (he ▸ htm)
          have hstep2 : isChain ps' h ((x :: y :: l3) ++ [p]) =
              (decide (h = some x) &&
                isChain ps' (ps'.getD x default).p_next ((y :: l3) ++ [p])) := rfl
          rw [hstep2, Bool.and_eq_true]
          refine ⟨hh, ?_⟩
          rw [hmid x (List.mem_cons_self _ _) hxt]
          exact ih _ (List.nodup_cons.mp hnd).2 ht'
            (fun z hz hzt => hmid z (List.mem_cons_of_mem _ hz) hzt) hch

theorem queueRepr_head_nil {k : Kernel} {i : Nat}
    (h : queueRepr k i [] = true) : (getq k i).q_head = none := by
  unfold queueRepr isChain at h
  rw [Bool.and_eq_true] at h
  exact of_decide_eq_true h.1

theorem queueRepr_cons_parts {k : Kernel} {i x : Nat} {l : List Nat}
    (h : queueRepr k i (x :: l) = true) :
    (getq k i).q_head = some x ∧
    isChain k.procs (k.procs.getD x default).p_next l = true ∧
    (getq k i).q_tail = (x :: l).getLast? := by
  unfold queueRepr at h
  rw [Bool.and_eq_true] at h
  obtain ⟨hch, htl⟩ := h
  have htl' : (getq k i).q_tail = (x :: l).getLast? := by
    rcases Bool.or_eq_true_iff.mp htl with h1 | h2
    · exact absurd (of_decide_eq_true h1) (by simp)
    · exact of_decide_eq_true h2
  have hstep : isChain k.procs (getq k i).q_head (x :: l) =
      (decide ((getq k i).q_head = some x) &&
        isChain k.procs (k.procs.getD x default).p_next l) := rfl
  rw [hstep, Bool.and_eq_true] at hch
  exact ⟨of_decide_eq_true hch.1, hch.2, htl'⟩

theorem queueRepr_intro {k : Kernel} {i : Nat} {l : List Nat}
    (hch : isChain k.procs (getq k i).q_head l = true)
    (htl : l = [] ∨ (getq k i).q_tail = l.getLast?) :
    queueRepr k i l = true := by
  unfold queueRepr
  rw [Bool.and_eq_true]
  refine ⟨hch, ?_⟩
  rcases htl with h | h
  · subst h
    simp
  · simp [h]

theorem isChain_singleton {ps : List Proc} {p : Nat}
    (h : (ps.getD p default).p_next = none) : isChain ps (some p) [p] = true := by
  show (decide (some p = some p) && decide ((ps.getD p default).p_next = none)) = true
  rw [h]
  simp

/-- make_ready at a non-idle priority appends p at the tail of the priority
queue (the queue list becomes l ++ [p]) and sets p ACTIVE with p_next
cleared. -/
theorem sched_append {k : Kernel} {i p : Nat} {l : List Nat}
    (hq3 : k.readyq.length = 3) (hi : i < 3)
    (hrepr : queueRepr k i l = true) (hnd : l.Nodup) (hp : p ∉ l)
    (hplen : p < k.procs.length) (hall : ∀ x ∈ l, x < k.procs.length) :
    queueRepr (make_ready k p i) i (l ++ [p]) = true ∧
    (make_ready k p i).proc p =
      { k.proc p with p_state := ACTIVE, p_next := none } := by
  have hP : P_IDLE = 3 := rfl
  have h3 : i ≠ P_IDLE := by omega
  simp only [make_ready, if_neg h3]
  set k1 := upd k p (fun r => { r with p_state := ACTIVE, p_next := none }) with hk1
  have hq1len : k1.readyq.length = 3 := by
    rw [hk1, upd_readyq]
    exact hq3
  have hproc1p : k1.proc p = { k.proc p with p_state := ACTIVE, p_next := none } := by
    rw [hk1]
    exact proc_upd_self _ _ _ hplen
  have hpn1 : (k1.procs.getD p default).p_next = none := by
    rw [hk1, upd_procs, getD_set_self _ _ _ _ hplen]
  have hcongr1 : ∀ x ∈ l,
      (k1.procs.getD x default).p_next = (k.procs.getD x default).p_next := by
    intro x hx
    have hxp : x ≠ p := fun he => hp (he ▸ hx)
    rw [hk1, upd_procs, getD_set_ne _ _ _ hxp]
  cases l with
  | nil =>
      have hh1 : (getq k1 i).q_head = none := queueRepr_head_nil hrepr
      simp only [hh1]
      constructor
      · refine queueRepr_intro ?_ (Or.inr ?_)
        · rw [getq_setq_self _ _ _ (by omega)]
          exact isChain_singleton hpn1
        · rw [getq_setq_self _ _ _ (by omega)]
          rfl
      · rw [proc_setq]
        exact hproc1p
  | cons x l2 =>
      obtain ⟨hh, hchx, htl⟩ := queueRepr_cons_parts hrepr
      obtain ⟨t, ht⟩ : ∃ t, (x :: l2).getLast? = some t := by
        cases hg : (x :: l2).getLast? with
        | none => exact absurd hg (by simp)
        | some t => exact ⟨t, rfl⟩
      have htmem : t ∈ x :: l2 := List.mem_of_getLast?_eq_some ht
      have htp : t ≠ p := fun he => hp (he ▸ htmem)
      have htlen : t < k.procs.length := hall t htmem
      have htlen1 : t < k1.procs.length := by
        rw [hk1, upd_procs, List.length_set]
        exact htlen
      have hh1 : (getq k1 i).q_head = some x := hh
      have htd : (getq k1 i).q_tail.getD 0 = t := by
        show (getq k i).q_tail.getD 0 = t
        rw [htl, ht]
        rfl
      simp only [hh1, htd]
      set k2 := upd k1 t (fun r => { r with p_next := some p }) with hk2
      have hq2len : k2.readyq.length = 3 := by
        rw [hk2, upd_readyq]
        exact hq1len
      have hlast2 : (k2.procs.getD t default).p_next = some p := by
        rw [hk2, upd_procs, getD_set_self _ _ _ _ htlen1]
      have hnew2 : (k2.procs.getD p default).p_next = none := by
        rw [hk2, upd_procs, getD_set_ne _ _ _ (Ne.symm htp)]
        exact hpn1
      have hmid2 : ∀ z ∈ x :: l2, z ≠ t →
          (k2.procs.getD z default).p_next = (k1.procs.getD z default).p_next := by
        intro z hz hzt
        rw [hk2, upd_procs, getD_set_ne _ _ _ hzt]
      have hbase : isChain k1.procs (some x) (x :: l2) = true := by
        rw [isChain_congr hcongr1 (some x)]
        show (decide ((some x : Option Nat) = some x) &&
          isChain k.procs (k.procs.getD x default).p_next l2) = true
        rw [hchx]
        simp
      have hchain : isChain k2.procs (some x) ((x :: l2) ++ [p]) = true :=
        @isChain_snoc k1.procs k2.procs t p hlast2 hnew2 (x :: l2) (some x) hnd ht
          hmid2 hbase
      constructor
      · refine queueRepr_intro ?_ (Or.inr ?_)
        · rw [getq_setq_self _ _ _ (by omega)]
          exact hchain
        · rw [getq_setq_self _ _ _ (by omega)]
          rw [List.getLast?_concat]
      · rw [proc_setq, hk2, proc_upd_ne _ _ (Ne.symm htp)]
        exact hproc1p

theorem choose_branch {k : Kernel} {i p : Nat} {r : List Nat}
    (hq3 : k.readyq.length = 3) (hi : i < 3)
    (hrest : isChain k.procs (k.procs.getD p default).p_next r = true)
    (htl : (getq k i).q_tail = (p :: r).getLast?) :
    queueRepr { setq k i ⟨(k.proc p).p_next, (getq k i).q_tail⟩ with
      current := some p } i r = true ∧
    (∀ j, j ≠ i → getq { setq k i ⟨(k.proc p).p_next, (getq k i).q_tail⟩ with
      current := some p } j = getq k j) := by
  constructor
  · refine queueRepr_intro ?_ ?_
    · show isChain k.procs
        ((k.readyq.set i ⟨(k.proc p).p_next, (getq k i).q_tail⟩).getD i
          default).q_head r = true
      rw [getD_set_self _ _ _ _ (by omega)]
      exact hrest
    · cases r with
      | nil => exact Or.inl rfl
      | cons y r2 =>
          refine Or.inr ?_
          show ((k.readyq.set i ⟨(k.proc p).p_next, (getq k i).q_tail⟩).getD i
            default).q_tail = (y :: r2).getLast?
          rw [getD_set_self _ _ _ _ (by omega)]
          show (getq k i).q_tail = (y :: r2).getLast?
          rw [htl, List.getLast?_cons_cons]
  · intro j hj
    show (k.readyq.set i ⟨(k.proc p).p_next, (getq k i).q_tail⟩).getD j default =
      getq k j
    rw [getD_set_ne _ _ _ hj]
    rfl

/-- choose_proc scans the queues in ascending priority number: the head of
the first non-empty queue is removed and becomes the current process, the
other queues are untouched; with all three queues empty the idle process
(PID 0) becomes current. -/
theorem sched_choose {k : Kernel} {l0 l1 l2 : List Nat}
    (hq3 : k.readyq.length = 3)
    (h0 : queueRepr k 0 l0 = true) (h1 : queueRepr k 1 l1 = true)
    (h2 : queueRepr k 2 l2 = true) :
    (∀ p r, l0 = p :: r →
       (choose_proc k).current = some p ∧ queueRepr (choose_proc k) 0 r = true ∧
       getq (choose_proc k) 1 = getq k 1 ∧ getq (choose_proc k) 2 = getq k 2) ∧
    (∀ p r, l0 = [] → l1 = p :: r →
       (choose_proc k).current = some p ∧ queueRepr (choose_proc k) 1 r = true ∧
       getq (choose_proc k) 0 = getq k 0 ∧ getq (choose_proc k) 2 = getq k 2) ∧
    (∀ p r, l0 = [] → l1 = [] → l2 = p :: r →
       (choose_proc k).current = some p ∧ queueRepr (choose_proc k) 2 r = true ∧
       getq (choose_proc k) 0 = getq k 0 ∧ getq (choose_proc k) 1 = getq k 1) ∧
    (l0 = [] → l1 = [] → l2 = [] → (choose_proc k).current = some 0) := by
  refine ⟨?_, ?_, ?_, ?_⟩
  · intro p r he
    subst he
    obtain ⟨hh, hrest, htl⟩ := queueRepr_cons_parts h0
    have hb := choose_branch hq3 (by omega) hrest htl
    simp only [choose_proc, hh]
    exact ⟨by trivial, hb.1, hb.2 1 (by omega), hb.2 2 (by omega)⟩
  · intro p r he0 he
    subst he0
    subst he
    have hn0 : (getq k 0).q_head = none := queueRepr_head_nil h0
    obtain ⟨hh, hrest, htl⟩ := queueRepr_cons_parts h1
    have hb := choose_branch hq3 (by omega) hrest htl
    simp only [choose_proc, hn0, hh]
    exact ⟨by trivial, hb.1, hb.2 0 (by omega), hb.2 2 (by omega)⟩
  · intro p r he0 he1 he
    subst he0
    subst he1
    subst he
    have hn0 : (getq k 0).q_head = none := queueRepr_head_nil h0
    have hn1 : (getq k 1).q_head = none := queueRepr_head_nil h1
    obtain ⟨hh, hrest, htl⟩ := queueRepr_cons_parts h2
    have hb := choose_branch hq3 (by omega) hrest htl
    simp only [choose_proc, hn0, hn1, hh]
    exact ⟨by trivial, hb.1, hb.2 0 (by omega), hb.2 1 (by omega)⟩
  · intro he0 he1 he2
    subst he0
    subst he1
    subst he2
    have hn0 : (getq k 0).q_head = none := queueRepr_head_nil h0
    have hn1 : (getq k 1).q_head = none := queueRepr_head_nil h1
    have hn2 : (getq k 2).q_head = none := queueRepr_head_nil h2
    simp only [choose_proc, hn0, hn1, hn2]

/-- Claim C7: make_ready at the idle level is a no-op, and otherwise sets
the state ACTIVE, clears p_next and appends at the tail of the requested
ready queue; choose_proc takes the head of the first non-empty queue in
ascending priority number as the new current process (removing it from
that queue and leaving the others alone) and falls back to the idle
process when all three are empty; and in every reachable kernel state the
idle process (PID 0) is on no ready queue. -/
theorem scheduler_spec :
    (∀ (k : Kernel) (p : Nat), make_ready k p P_IDLE = k) ∧
    (∀ (k : Kernel) (i p : Nat) (l : List Nat),
       k.readyq.length = 3 → i < 3 → queueRepr k i l = true → l.Nodup →
       p ∉ l → p < k.procs.length → (∀ x ∈ l, x < k.procs.length) →
       queueRepr (make_ready k p i) i (l ++ [p]) = true ∧
       (make_ready k p i).proc p =
         { k.proc p with p_state := ACTIVE, p_next := none }) ∧
    (∀ (k : Kernel) (l0 l1 l2 : List Nat),
       k.readyq.length = 3 → queueRepr k 0 l0 = true → queueRepr k 1 l1 = true →
       queueRepr k 2 l2 = true →
       (∀ p r, l0 = p :: r →
          (choose_proc k).current = some p ∧
          queueRepr (choose_proc k) 0 r = true ∧
          getq (choose_proc k) 1 = getq k 1 ∧ getq (choose_proc k) 2 = getq k 2) ∧
       (∀ p r, l0 = [] → l1 = p :: r →
          (choose_proc k).current = some p ∧
          queueRepr (choose_proc k) 1 r = true ∧
          getq (choose_proc k) 0 = getq k 0 ∧ getq (choose_proc k) 2 = getq k 2) ∧
       (∀ p r, l0 = [] → l1 = [] → l2 = p :: r →
          (choose_proc k).current = some p ∧
          queueRepr (choose_proc k) 2 r = true ∧
          getq (choose_proc k) 0 = getq k 0 ∧ getq (choose_proc k) 1 = getq k 1) ∧
       (l0 = [] → l1 = [] → l2 = [] → (choose_proc k).current = some 0)) ∧
    (∀ k : Kernel, Reachable k → onReady k 0 = false) :=
  ⟨fun k p => make_ready_idle_id k p,
   fun _ _ _ _ hq3 hi hrepr hnd hp hplen hall =>
     sched_append hq3 hi hrepr hnd hp hplen hall,
   fun _ _ _ _ hq3 h0 h1 h2 => sched_choose hq3 h0 h1 h2,
   fun _ hr => noIdle_onReady (reachable_noIdle hr)⟩

/-- Witness for scheduler_spec at concrete inputs: the idle-level no-op, an
append of PID 2 to the empty queue 1 of c2K, the idle fallback of
choose_proc on c2K (all queues empty), and the reachable initial state. -/
theorem scheduler_spec_witness :
    make_ready c2K 1 P_IDLE = c2K ∧
    (queueRepr (make_ready c2K 2 1) 1 ([] ++ [2]) = true ∧
      (make_ready c2K 2 1).proc 2 =
        { c2K.proc 2 with p_state := ACTIVE, p_next := none }) ∧
    (choose_proc c2K).current = some 0 ∧
    onReady (os_init []) 0 = false := by
  have h := scheduler_spec
  refine ⟨h.1 c2K 1, ?_, ?_, h.2.2.2 (os_init []) (Reachable.init [])⟩
  · exact h.2.1 c2K 1 2 [] (by decide) (by decide) (by decide) (by decide)
      (by decide) (by decide) (by decide)
  · exact (h.2.2.1 c2K [] [] [] (by decide) (by decide) (by decide)
      (by decide)).2.2.2 rfl rfl rfl

theorem memset_words_length (s : List Nat) (sp : Nat) :
    ∀ n, (memset_words s sp n).length = s.length := by
  intro n
  induction n with
  | zero => rfl
  | succ m ih =>
      show ((memset_words s sp m).set (sp + m) 0).length = s.length
      rw [List.length_set, ih]

theorem memset_words_getD_lt (s : List Nat) (sp : Nat) {j : Nat} (h : j < sp) :
    ∀ n, (memset_words s sp n).getD j 0 = s.getD j 0 := by
  intro n
  induction n with
  | zero => rfl
  | succ m ih =>
      show ((memset_words s sp m).set (sp + m) 0).getD j 0 = s.getD j 0
      rw [getD_set_ne _ _ _ (by omega), ih]

theorem writeFrame_length (s : List Nat) (sp body : Nat) (arg : Int) :
    (writeFrame s sp body arg).length = s.length := by
  unfold writeFrame
  rw [List.length_set, List.length_set, List.length_set, List.length_set,
    memset_words_length]

theorem writeFrame_getD_lt (s : List Nat) (sp body : Nat) (arg : Int) {j : Nat}
    (h : j < sp) : (writeFrame s sp body arg).getD j 0 = s.getD j 0 := by
  have h8 : R0_SAVE = 8 := rfl
  have h13 : LR_SAVE = 13 := rfl
  have h14 : PC_SAVE = 14 := rfl
  have h15 : PSR_SAVE = 15 := rfl
  unfold writeFrame
  rw [getD_set_ne _ _ _ (by omega), getD_set_ne _ _ _ (by omega),
    getD_set_ne _ _ _ (by omega), getD_set_ne _ _ _ (by omega),
    memset_words_getD_lt _ _ h]

theorem writeFrame_psr (s : List Nat) (sp body : Nat) (arg : Int)
    (h : sp + 15 < s.length) :
    (writeFrame s sp body arg).getD (sp + PSR_SAVE) 0 = INIT_PSR := by
  have h8 : R0_SAVE = 8 := rfl
  have h13 : LR_SAVE = 13 := rfl
  have h14 : PC_SAVE = 14 := rfl
  have h15 : PSR_SAVE = 15 := rfl
  unfold writeFrame
  rw [getD_set_ne _ _ _ (by omega), getD_set_ne _ _ _ (by omega),
    getD_set_ne _ _ _ (by omega),
    getD_set_self _ _ _ _ (by rw [memset_words_length]; omega)]

theorem writeFrame_pc (s : List Nat) (sp body : Nat) (arg : Int)
    (h : sp + 15 < s.length) :
    (writeFrame s sp body arg).getD (sp + PC_SAVE) 0 =
      Nat.land (body % 2 ^ 32) 0xFFFFFFFE := by
  have h8 : R0_SAVE = 8 := rfl
  have h13 : LR_SAVE = 13 := rfl
  have h14 : PC_SAVE = 14 := rfl
  have h15 : PSR_SAVE = 15 := rfl
  unfold writeFrame
  rw [getD_set_ne _ _ _ (by omega), getD_set_ne _ _ _ (by omega),
    getD_set_self _ _ _ _ (by rw [List.length_set, memset_words_length]; omega)]

theorem writeFrame_lr (s : List Nat) (sp body : Nat) (arg : Int)
    (h : sp + 15 < s.length) :
    (writeFrame s sp body arg).getD (sp + LR_SAVE) 0 = exitAddr := by
  have h8 : R0_SAVE = 8 := rfl
  have h13 : LR_SAVE = 13 := rfl
  unfold writeFrame
  rw [getD_set_ne _ _ _ (by omega),
    getD_set_self _ _ _ _
      (by rw [List.length_set, List.length_set, memset_words_length]; omega)]

theorem writeFrame_r0 (s : List Nat) (sp body : Nat) (arg : Int)
    (h : sp + 15 < s.length) :
    (writeFrame s sp body arg).getD (sp + R0_SAVE) 0 = (arg % 2 ^ 32).toNat := by
  have h8 : R0_SAVE = 8 := rfl
  unfold writeFrame
  rw [getD_set_self _ _ _ _
    (by rw [List.length_set, List.length_set, List.length_set,
      memset_words_length]; omega)]

theorem getD_replicate_blank {n j : Nat} (h : j < n) :
    (List.replicate n BLANK).getD j 0 = BLANK := by
  rw [List.getD_eq_getElem _ _ (by simpa using h)]
  exact List.getElem_replicate _ _

theorem land_mask_even (x : Nat) : Nat.land x 0xFFFFFFFE % 2 = 0 := by
  have h1 : Nat.land x 0xFFFFFFFE &&& 1 = 0 := by
    show x &&& 0xFFFFFFFE &&& 1 = 0
    rw [Nat.and_assoc]
    norm_num
  rw [← Nat.and_one_is_mod]
  exact h1

theorem land_mask_testBit (x j : Nat) (h0 : 0 < j) (h32 : j < 32) :
    (Nat.land (x % 2 ^ 32) 0xFFFFFFFE).testBit j = x.testBit j := by
  have hmask : Nat.testBit 0xFFFFFFFE j = true := by
    interval_cases j <;> decide
  show ((x % 2 ^ 32) &&& 0xFFFFFFFE).testBit j = x.testBit j
  rw [Nat.testBit_and, Nat.testBit_mod_two_pow, hmask]
  simp [h32]

attribute [irreducible] memset_words writeFrame in
set_option maxHeartbeats 2000000 in
/-- Claim C8: a start before the scheduler runs returns the new PID (its
table index), leaves every stack word below the frame equal to BLANK,
installs a 16-word exception frame at the stack top whose saved PSR is
INIT_PSR (Thumb bit 24 set), saved PC is the body address with bit 0
cleared (all other address bits preserved), saved LR is the exit stub
address and saved R0 is the 32-bit cast of arg, and appends the process
(ACTIVE, priority P_LOW) at the tail of the ready queue of its
priority. -/
theorem start_frame_spec :
    ∀ (k : Kernel) (name : String) (body : Nat) (arg : Int) (stk : Nat)
      (l : List Nat),
      k.current = none →
      k.procs.length < NPROCS →
      64 ≤ stk →
      k.readyq.length = 3 →
      queueRepr k P_LOW l = true →
      l.Nodup →
      (∀ x ∈ l, x < k.procs.length) →
      ∃ (k' : Kernel) (p : Proc),
        start k name body arg stk = some (k', k.procs.length) ∧
        p = k'.proc k.procs.length ∧
        p.p_pid = k.procs.length ∧
        p.p_state = ACTIVE ∧
        p.p_priority = P_LOW ∧
        p.p_stack.length = roundup stk 8 / 4 ∧
        16 ≤ p.p_stack.length ∧
        p.p_sp + 16 = p.p_stack.length ∧
        (∀ j, j < p.p_sp → p.p_stack.getD j 0 = BLANK) ∧
        p.p_stack.getD (p.p_sp + PSR_SAVE) 0 = INIT_PSR ∧
        Nat.testBit INIT_PSR 24 = true ∧
        p.p_stack.getD (p.p_sp + PC_SAVE) 0 = Nat.land (body % 2 ^ 32) 0xFFFFFFFE ∧
        Nat.land (body % 2 ^ 32) 0xFFFFFFFE % 2 = 0 ∧
        (∀ j, 0 < j → j < 32 →
           (Nat.land (body % 2 ^ 32) 0xFFFFFFFE).testBit j = Nat.testBit body j) ∧
        p.p_stack.getD (p.p_sp + LR_SAVE) 0 = exitAddr ∧
        p.p_stack.getD (p.p_sp + R0_SAVE) 0 = (arg % 2 ^ 32).toNat ∧
        queueRepr k' P_LOW (l ++ [k.procs.length]) = true := by
  intro k name body arg stk l hcur hlen hstk hq3 hrepr hnd hall
  have hsome := start_some name body arg stk hlen hcur
  have hW : 16 ≤ roundup stk 8 / 4 := by
    unfold roundup
    omega
  set K1 := { k with procs := k.procs ++
      [newProcRec k.procs.length name (roundup stk 8)] } with hK1
  set k2 := upd K1 k.procs.length (fun r => { r with
      p_sp := (K1.proc k.procs.length).p_sp - 16
      p_stack := writeFrame r.p_stack ((K1.proc k.procs.length).p_sp - 16)
        body arg }) with hk2
  have hK1p : K1.proc k.procs.length =
      newProcRec k.procs.length name (roundup stk 8) := by
    show (k.procs ++ [newProcRec k.procs.length name (roundup stk 8)]).getD
      k.procs.length default = _
    exact getD_snoc_self _ _ _
  have hK1len : K1.procs.length = k.procs.length + 1 := by
    show (k.procs ++ [_]).length = _
    rw [List.length_append]
    rfl
  have h2p : k2.proc k.procs.length =
      { newProcRec k.procs.length name (roundup stk 8) with
        p_sp := (newProcRec k.procs.length name (roundup stk 8)).p_sp - 16
        p_stack := writeFrame
          (newProcRec k.procs.length name (roundup stk 8)).p_stack
          ((newProcRec k.procs.length name (roundup stk 8)).p_sp - 16)
          body arg } := by
    rw [hk2, proc_upd_self _ _ _ (by omega), hK1p]
  have hprio : (k2.proc k.procs.length).p_priority = P_LOW := by
    rw [h2p]
    rfl
  have hk2len : k2.procs.length = k.procs.length + 1 := by
    show (K1.procs.set _ _).length = _
    rw [List.length_set]
    exact hK1len
  have hcongr : ∀ x ∈ l,
      (k2.procs.getD x default).p_next = (k.procs.getD x default).p_next := by
    intro x hx
    have hxL : x < k.procs.length := hall x hx
    show ((K1.procs.set k.procs.length _).getD x default).p_next = _
    rw [getD_set_ne _ _ _ (by omega)]
    show ((k.procs ++ [_]).getD x default).p_next = _
    rw [getD_snoc_lt _ _ _ hxL]
  have hrepr2 : queueRepr k2 P_LOW l = true := by
    unfold queueRepr at hrepr ⊢
    rw [Bool.and_eq_true] at hrepr ⊢
    obtain ⟨hch, htl⟩ := hrepr
    constructor
    · show isChain k2.procs (getq k P_LOW).q_head l = true
      rw [isChain_congr hcongr _]
      exact hch
    · exact htl
  have hpL : k.procs.length ∉ l := fun hmem => absurd (hall _ hmem) (lt_irrefl _)
  have hall2 : ∀ x ∈ l, x < k2.procs.length := by
    intro x hx
    have := hall x hx
    omega
  have happend := sched_append (show k2.readyq.length = 3 from hq3)
    (show P_LOW < 3 by decide) hrepr2 hnd hpL (by omega) hall2
  have hfin : (make_ready k2 k.procs.length
      ((k2.proc k.procs.length).p_priority)).proc k.procs.length =
      { k2.proc k.procs.length with p_state := ACTIVE, p_next := none } := by
    rw [hprio]
    exact happend.2
  have hrec : (make_ready k2 k.procs.length
      ((k2.proc k.procs.length).p_priority)).proc k.procs.length =
      { newProcRec k.procs.length name (roundup stk 8) with
        p_state := ACTIVE
        p_next := none
        p_sp := (newProcRec k.procs.length name (roundup stk 8)).p_sp - 16
        p_stack := writeFrame
          (newProcRec k.procs.length name (roundup stk 8)).p_stack
          ((newProcRec k.procs.length name (roundup stk 8)).p_sp - 16)
          body arg } := by
    rw [hfin, h2p]
  have hstlen : (writeFrame
      (newProcRec k.procs.length name (roundup stk 8)).p_stack
      ((newProcRec k.procs.length name (roundup stk 8)).p_sp - 16)
      body arg).length = roundup stk 8 / 4 := by
    rw [writeFrame_length]
    exact List.length_replicate _ _
  have hbound : ((newProcRec k.procs.length name (roundup stk 8)).p_sp - 16) + 15 <
      (newProcRec k.procs.length name (roundup stk 8)).p_stack.length := by
    show roundup stk 8 / 4 - 16 + 15 < (List.replicate (roundup stk 8 / 4) BLANK).length
    rw [List.length_replicate]
    omega
  refine ⟨_, _, hsome, hrec.symm, ?_, ?_, ?_, ?_, ?_, ?_, ?_, ?_, ?_, ?_, ?_,
    ?_, ?_, ?_, ?_⟩
  · rfl
  · rfl
  · rfl
  · exact hstlen
  · exact le_of_le_of_eq hW hstlen.symm
  · exact (by omega : roundup stk 8 / 4 - 16 + 16 = roundup stk 8 / 4).trans
      hstlen.symm
  · intro j hj
    have hj2 : j < roundup stk 8 / 4 - 16 := hj
    exact (writeFrame_getD_lt _ _ _ _ hj2).trans (getD_replicate_blank (by omega))
  · exact writeFrame_psr _ _ _ _ hbound
  · decide
  · exact writeFrame_pc _ _ _ _ hbound
  · exact land_mask_even _
  · exact fun j h0 h32 => land_mask_testBit body j h0 h32
  · exact writeFrame_lr _ _ _ _ hbound
  · exact writeFrame_r0 _ _ _ _ hbound
  · show queueRepr (make_ready k2 k.procs.length
        ((k2.proc k.procs.length).p_priority)) P_LOW (l ++ [k.procs.length]) = true
    rw [hprio]
    exact happend.1

/-- Witness for start_frame_spec: starting a process with body address 100,
argument 0 and a 64-byte stack in the freshly initialised kernel satisfies
every hypothesis, and the conclusion holds at PID 1. -/
theorem start_frame_spec_witness :
    ∃ (k' : Kernel) (p : Proc),
      start (os_init []) "A" 100 0 64 = some (k', 1) ∧
      p = k'.proc 1 ∧
      p.p_pid = 1 ∧
      p.p_state = ACTIVE ∧
      p.p_priority = P_LOW ∧
      p.p_stack.length = roundup 64 8 / 4 ∧
      16 ≤ p.p_stack.length ∧
      p.p_sp + 16 = p.p_stack.length ∧
      (∀ j, j < p.p_sp → p.p_stack.getD j 0 = BLANK) ∧
      p.p_stack.getD (p.p_sp + PSR_SAVE) 0 = INIT_PSR ∧
      Nat.testBit INIT_PSR 24 = true ∧
      p.p_stack.getD (p.p_sp + PC_SAVE) 0 = Nat.land (100 % 2 ^ 32) 0xFFFFFFFE ∧
      Nat.land (100 % 2 ^ 32) 0xFFFFFFFE % 2 = 0 ∧
      (∀ j, 0 < j → j < 32 →
         (Nat.land (100 % 2 ^ 32) 0xFFFFFFFE).testBit j = Nat.testBit 100 j) ∧
      p.p_stack.getD (p.p_sp + LR_SAVE) 0 = exitAddr ∧
      p.p_stack.getD (p.p_sp + R0_SAVE) 0 = ((0 : Int) % 2 ^ 32).toNat ∧
      queueRepr k' P_LOW ([] ++ [1]) = true :=
  start_frame_spec (os_init []) "A" 100 0 64 [] (by decide) (by decide)
    (by decide) (by decide) (by decide) List.nodup_nil
    (fun x hx => absurd hx (List.not_mem_nil x))
